import Mathlib

/-!
# ITK wallet: balance store, balance service and HTTP handlers

A shallow embedding of `internal/models`, `internal/repository`, `internal/service`
and `internal/handlers`.

* Go `error` values are modelled by their message (`Option String`, `none` for `nil`);
  `fmt.Errorf("p: %w", err)` is the message `"p: " ++ err`.
* Go `uint` is 64 bits wide: `balance + amount` is taken modulo `2 ^ 64`.
* The `wallets` table is a map from identifiers to balances together with the list of
  statements the repository has sent to the database.
* The failures of the database driver are a parameter of the repository (`Driver`).
* A function with a receiver whose calls change the store takes the store state as its
  last argument and returns the new state next to its Go results.
-/

namespace Wallet

/-! ## Strings -/

/-- Whether the second list of characters is an initial segment of the first. -/
def startsWith : List Char → List Char → Bool
  | _, [] => true
  | [], _ :: _ => false
  | c :: s, d :: p => (c == d) && startsWith s p

/-- Whether the second list of characters occurs in the first as a contiguous block. -/
def containsChars : List Char → List Char → Bool
  | [], p => startsWith [] p
  | c :: s, p => startsWith (c :: s) p || containsChars s p

/-- Go `strings.Contains(s, substr)`. -/
def stringsContains (s substr : String) : Bool :=
  containsChars s.data substr.data

/-- Whether two lists of characters agree on their common length. -/
def agree : List Char → List Char → Bool
  | [], _ => true
  | _ :: _, [] => true
  | c :: s, d :: p => (c == d) && agree s p

/-- Whether no non-empty final segment of the first list agrees with the second list:
then an occurrence of the second list in `a ++ b` lies within `b`. -/
def noOverlap : List Char → List Char → Bool
  | [], _ => true
  | c :: s, p => !agree (c :: s) p && noOverlap s p

/-! ## models -/

/-- Go `uuid.UUID`: the store treats identifiers as opaque keys compared for equality. -/
abbrev UUID := Nat

/-- Go `type OperationType string`. -/
abbrev OperationType := String

/-- Constant `OperationTypeWithdraw`. -/
def OperationTypeWithdraw : OperationType := "WITHDRAW"

/-- Constant `OperationTypeDeposit`. -/
def OperationTypeDeposit : OperationType := "DEPOSIT"

/-- Go `error`: `none` is `nil`, `some msg` an error whose `Error()` is `msg`. -/
abbrev Error := Option String

/-- Number of values of Go `uint` (64-bit platforms). -/
def uintSize : Nat := 2 ^ 64

/-- Number of non-negative values of Go `int` (64-bit platforms). -/
def intSize : Nat := 2 ^ 63

/-- Go conversion `uint(amount)` of an `int`. -/
def toUint (amount : Int) : Nat := (amount % (uintSize : Int)).toNat

/-! ## The database behind `*sql.DB` -/

/-- Statements the repository sends to the database. `beginTx` is recorded when a
transaction has been opened, the other statements when they are issued. -/
inductive DbCall where
  | beginTx
  | selectForUpdate (id : UUID)
  | select (id : UUID)
  | update (id : UUID) (balance : Nat)
  | insert (id : UUID)
  | commit
  | rollback
  deriving DecidableEq, Repr

/-- The `wallets` table (committed balance of each identifier, `none` when there is no
row) and the statements issued so far, oldest first. -/
structure Db where
  rows : UUID → Option Nat
  calls : List DbCall

/-- Append a statement to the history. -/
def Db.record (st : Db) (c : DbCall) : Db :=
  { st with calls := st.calls ++ [c] }

/-- Set the committed balance of one row. -/
def Db.setRow (st : Db) (id : UUID) (balance : Nat) : Db :=
  { st with rows := fun j => if j = id then some balance else st.rows j }

/-- Number of open transactions after the statements of a history, read oldest first,
when `n` transactions were open before. -/
def openTxAfter : Nat → List DbCall → Nat
  | n, [] => n
  | n, DbCall.beginTx :: cs => openTxAfter (n + 1) cs
  | n, DbCall.commit :: cs => openTxAfter (n - 1) cs
  | n, DbCall.rollback :: cs => openTxAfter (n - 1) cs
  | n, _ :: cs => openTxAfter n cs

/-- Number of transactions opened and neither committed nor rolled back. -/
def openTx (cs : List DbCall) : Nat := openTxAfter 0 cs

/-- Failures of the driver, one field per call the repository makes; `none` means the
call succeeds. `query` stands for an error of `QueryRowContext(...).Scan` other than
`sql.ErrNoRows`. -/
structure Driver where
  beginTx : Error
  query : Error
  exec : Error
  rowsAffected : Error
  commit : Error

/-- A driver none of whose calls fails. -/
def Driver.healthy : Driver :=
  { beginTx := none, query := none, exec := none, rowsAffected := none, commit := none }

/-- Message of the conversion error `Scan` reports when the column value does not fit
the destination. -/
def scanRangeError : String := "converting driver.Value: value out of range"

/-- `Scan(&balance)` with `var balance uint`. -/
def scanUint (v : Nat) : Except String Nat :=
  if v < uintSize then .ok v else .error scanRangeError

/-- `Scan(&balance)` with `var balance int`. -/
def scanInt (v : Nat) : Except String Int :=
  if v < intSize then .ok (Int.ofNat v) else .error scanRangeError

/-! ## repository -/

/-- Go `type WalletInterface interface`, over a store with states `σ`. -/
structure WalletInterface (σ : Type) where
  GetBalance : UUID → σ → (Int × Error) × σ
  UpdateBalance : UUID → OperationType → Nat → σ → (Bool × Error) × σ
  CreateWallet : UUID → σ → (Bool × Error) × σ

/-- Go `type WalletRepository struct { db *sql.DB }`. -/
structure WalletRepository where
  db : Driver

/-- Go `NewWalletRepository`. -/
def NewWalletRepository (db : Driver) : WalletRepository := { db := db }

/-- Go `(*WalletRepository).GetBalance`. -/
def WalletRepository.GetBalance (r : WalletRepository) (walletID : UUID) (st : Db) :
    (Int × Error) × Db :=
  let st := st.record (.select walletID)
  match r.db.query with
  | some err => ((0, some ("failed to get balance: " ++ err)), st)
  | none =>
    match st.rows walletID with
    | none => ((0, some "balance not found"), st)
    | some v =>
      match scanInt v with
      | .error err => ((0, some ("failed to get balance: " ++ err)), st)
      | .ok balance => ((balance, none), st)

/-- The `switch operationType` of `UpdateBalance`: the new balance, or the values
returned from inside the switch. -/
def switchOperation (operationType : OperationType) (balance amount : Nat) (st : Db) :
    Except ((Bool × Error) × Db) Nat :=
  if operationType = OperationTypeDeposit then
    .ok ((balance + amount) % uintSize)
  else if operationType = OperationTypeWithdraw then
    if balance < amount then
      .error ((false, some "insufficient funds"), st.record .rollback)
    else
      .ok (balance - amount)
  else
    .error ((false, some "invalid operation type"), st)

/-- Go `(*WalletRepository).UpdateBalance`. -/
def WalletRepository.UpdateBalance (r : WalletRepository) (walletID : UUID)
    (operationType : OperationType) (amount : Nat) (st : Db) : (Bool × Error) × Db :=
  match r.db.beginTx with
  | some err => ((false, some err), st)
  | none =>
    let st := (st.record .beginTx).record (.selectForUpdate walletID)
    match r.db.query with
    | some err => ((false, some ("failed to get balance: " ++ err)), st)
    | none =>
      match st.rows walletID with
      | none => ((false, some "wallet not found"), st)
      | some v =>
        match scanUint v with
        | .error err => ((false, some ("failed to get balance: " ++ err)), st)
        | .ok balance =>
          match switchOperation operationType balance amount st with
          | .error ret => ret
          | .ok newBalance =>
            let st := st.record (.update walletID newBalance)
            match r.db.exec with
            | some err => ((false, some ("failed to update wallet: " ++ err)), st)
            | none =>
              match r.db.rowsAffected with
              | some err => ((false, some err), st)
              | none =>
                let rowsAffected : Nat := if (st.rows walletID).isSome then 1 else 0
                if rowsAffected = 0 then
                  ((false, some "failed to update wallet"), st)
                else
                  let st := st.record .commit
                  match r.db.commit with
                  | some err => ((true, some err), st)
                  | none => ((true, none), st.setRow walletID newBalance)

/-- Go `(*WalletRepository).CreateWallet`: `INSERT ... ON CONFLICT (id) DO NOTHING`
outside any transaction. -/
def WalletRepository.CreateWallet (r : WalletRepository) (walletID : UUID) (st : Db) :
    (Bool × Error) × Db :=
  let st := st.record (.insert walletID)
  match r.db.exec with
  | some err => ((false, some ("failed to create wallet: " ++ err)), st)
  | none =>
    let rowsAffected : Nat := if (st.rows walletID).isSome then 0 else 1
    let st := if (st.rows walletID).isSome then st else st.setRow walletID 0
    match r.db.rowsAffected with
    | some err => ((false, some ("failed to get rows affected: " ++ err)), st)
    | none => ((decide (rowsAffected > 0), none), st)

/-- The repository as an implementation of `WalletInterface`. -/
def WalletRepository.toInterface (r : WalletRepository) : WalletInterface Db :=
  { GetBalance := r.GetBalance
    UpdateBalance := r.UpdateBalance
    CreateWallet := r.CreateWallet }

/-! ## service -/

/-- Go `type WalletService struct { walletRepo repository.WalletInterface }`. -/
structure WalletService (σ : Type) where
  walletRepo : WalletInterface σ

/-- Go `NewWalletService`. -/
def NewWalletService {σ : Type} (walletRepo : WalletInterface σ) : WalletService σ :=
  { walletRepo := walletRepo }

/-- Go `(*WalletService).GetBalance`. -/
def WalletService.GetBalance {σ : Type} (s : WalletService σ) (walletID : UUID) (st : σ) :
    (Int × Error) × σ :=
  match s.walletRepo.GetBalance walletID st with
  | ((_, some err), st) => ((0, some ("failed to get wallets balance: " ++ err)), st)
  | ((balance, none), st) => ((balance, none), st)

/-- Go `(*WalletService).UpdateBalance`. -/
def WalletService.UpdateBalance {σ : Type} (s : WalletService σ) (walletID : UUID)
    (operationType : OperationType) (amount : Int) (st : σ) : (Bool × Error) × σ :=
  if operationType ≠ OperationTypeDeposit ∧ operationType ≠ OperationTypeWithdraw then
    ((false, some ("invalid operationType: " ++ operationType)), st)
  else if amount ≤ 0 then
    ((false, some "amount must be greater than zero"), st)
  else
    match s.walletRepo.UpdateBalance walletID operationType (toUint amount) st with
    | ((_, some err), st) => ((false, some ("failed to update balance: " ++ err)), st)
    | ((ok, none), st) => ((ok, none), st)

/-- Go `(*WalletService).CreateWallet`. -/
def WalletService.CreateWallet {σ : Type} (s : WalletService σ) (walletID : UUID) (st : σ) :
    (Bool × Error) × σ :=
  match s.walletRepo.CreateWallet walletID st with
  | ((_, some err), st) => ((false, some ("failed to create wallet: " ++ err)), st)
  | ((ok, none), st) => ((ok, none), st)

/-! ## handlers -/

/-- JSON body of a response: `gin.H{"error": ..}`, `gin.H{"balance": ..}` or
`gin.H{"message": ..}`. -/
inductive Body where
  | error (msg : String)
  | balance (b : Int)
  | message (msg : String)
  deriving DecidableEq, Repr

/-- Status code and body written by a handler. -/
structure Response where
  status : Nat
  body : Body
  deriving DecidableEq, Repr

/-- Go `type OperationRequest struct`. -/
structure OperationRequest where
  WalletID : UUID
  OperationType : OperationType
  Amount : Int

/-- Go `type WalletHandler struct { service *service.WalletService }`. -/
structure WalletHandler (σ : Type) where
  service : WalletService σ

/-- Go `NewWalletHandler`. -/
def NewWalletHandler {σ : Type} (service : WalletService σ) : WalletHandler σ :=
  { service := service }

/-- Go `(*WalletHandler).GetBalance`; `param` is the result of `uuid.Parse` on the path
parameter (`none` when it fails). -/
def WalletHandler.GetBalance {σ : Type} (h : WalletHandler σ) (param : Option UUID) (st : σ) :
    Response × σ :=
  match param with
  | none => (⟨400, .error "invalid wallet ID"⟩, st)
  | some walletID =>
    match h.service.GetBalance walletID st with
    | ((_, some err), st) =>
      if stringsContains err "balance not found" || stringsContains err "not found" then
        (⟨404, .error "wallet not found"⟩, st)
      else
        (⟨500, .error "internal server error"⟩, st)
    | ((balance, none), st) => (⟨200, .balance balance⟩, st)

/-- Go `(*WalletHandler).ProcessOperation`; `bound` is the result of `ShouldBindJSON`. -/
def WalletHandler.ProcessOperation {σ : Type} (h : WalletHandler σ)
    (bound : Except String OperationRequest) (st : σ) : Response × σ :=
  match bound with
  | .error err => (⟨400, .error err⟩, st)
  | .ok req =>
    if req.Amount ≤ 0 then
      (⟨400, .error "amount must be greater than zero"⟩, st)
    else
      match h.service.UpdateBalance req.WalletID req.OperationType req.Amount st with
      | ((_, some err), st) =>
        if stringsContains err "wallet not found" || stringsContains err "balance not found" then
          match h.service.CreateWallet req.WalletID st with
          | ((_, some _), st) => (⟨500, .error "failed to create wallet"⟩, st)
          | ((_, none), st) =>
            match h.service.UpdateBalance req.WalletID req.OperationType req.Amount st with
            | ((_, some err), st) =>
              if stringsContains err "insufficient funds" then
                (⟨400, .error "insufficient funds"⟩, st)
              else if stringsContains err "invalid operationType"
                  || stringsContains err "amount cannot be zero" then
                (⟨400, .error err⟩, st)
              else
                (⟨500, .error "internal server error"⟩, st)
            | ((_, none), st) => (⟨200, .message "operation completed"⟩, st)
        else if stringsContains err "insufficient funds" then
          (⟨400, .error "insufficient funds"⟩, st)
        else if stringsContains err "invalid operationType"
            || stringsContains err "amount cannot be zero" then
          (⟨400, .error err⟩, st)
        else
          (⟨500, .error "internal server error"⟩, st)
      | ((_, none), st) => (⟨200, .message "operation completed"⟩, st)

/-! ## Wiring of `main` -/

/-- The handler of `main`: repository, service and handler over one database. -/
def mainHandler (db : Driver) : WalletHandler Db :=
  NewWalletHandler (NewWalletService (NewWalletRepository db).toInterface)

/-- A database with no wallet and no statement issued. -/
def Db.empty : Db := { rows := fun _ => none, calls := [] }

/-- The service of `main` over a driver that does not fail. -/
def healthyService : WalletService Db :=
  NewWalletService (NewWalletRepository Driver.healthy).toInterface

/-! ## Sequences of operations -/

/-- Apply a list of `(operationType, amount)` requests to one wallet, one
`WalletService.UpdateBalance` call after another; the results are listed in call order. -/
def applyOps {σ : Type} (s : WalletService σ) (walletID : UUID) :
    List (OperationType × Int) → σ → List (Bool × Error) × σ
  | [], st => ([], st)
  | (operationType, amount) :: rest, st =>
    let r := s.UpdateBalance walletID operationType amount st
    let rs := applyOps s walletID rest r.2
    (r.1 :: rs.1, rs.2)

/-- Sum of the amounts of the requests of one operation type. -/
def totalOf (operationType : OperationType) (ops : List (OperationType × Int)) : Int :=
  ((ops.filter (fun p => p.1 = operationType)).map (fun p => p.2)).sum

/-! ## Observing the calls made through `WalletInterface` -/

/-- A call made on a `WalletInterface`, with the values it returned. -/
inductive StoreCall where
  | getBalance (id : UUID) (ret : Int × Error)
  | updateBalance (id : UUID) (operationType : OperationType) (amount : Nat)
      (ret : Bool × Error)
  | createWallet (id : UUID) (ret : Bool × Error)
  deriving DecidableEq, Repr

/-- Whether the call is an `UpdateBalance`. -/
def StoreCall.isUpdate : StoreCall → Bool
  | .updateBalance _ _ _ _ => true
  | _ => false

/-- Whether the call is a `CreateWallet`. -/
def StoreCall.isCreate : StoreCall → Bool
  | .createWallet _ _ => true
  | _ => false

/-- The errors returned by the `UpdateBalance` calls of a history, in call order. -/
def updateErrors : List StoreCall → List Error
  | [] => []
  | .updateBalance _ _ _ ret :: cs => ret.2 :: updateErrors cs
  | _ :: cs => updateErrors cs

/-- The same store, keeping next to its state the list of the calls made on it, oldest
first. -/
def WalletInterface.observed {σ : Type} (w : WalletInterface σ) :
    WalletInterface (σ × List StoreCall) :=
  { GetBalance := fun walletID st =>
      ((w.GetBalance walletID st.1).1,
        ((w.GetBalance walletID st.1).2,
          st.2 ++ [.getBalance walletID (w.GetBalance walletID st.1).1]))
    UpdateBalance := fun walletID operationType amount st =>
      ((w.UpdateBalance walletID operationType amount st.1).1,
        ((w.UpdateBalance walletID operationType amount st.1).2,
          st.2 ++ [.updateBalance walletID operationType amount
            (w.UpdateBalance walletID operationType amount st.1).1]))
    CreateWallet := fun walletID st =>
      ((w.CreateWallet walletID st.1).1,
        ((w.CreateWallet walletID st.1).2,
          st.2 ++ [.createWallet walletID (w.CreateWallet walletID st.1).1])) }

/-- Response of `ProcessOperation` over a store, the final state of the store and the
calls the handler made on the store while answering. -/
def processObserved {σ : Type} (w : WalletInterface σ)
    (bound : Except String OperationRequest) (st : σ) : Response × σ × List StoreCall :=
  (NewWalletHandler (NewWalletService w.observed)).ProcessOperation bound (st, [])

/-- A store without any wallet whose `UpdateBalance` always reports that the wallet is
missing, as `WalletRepository.UpdateBalance` does, and whose `CreateWallet` reports a
new wallet. -/
def missingStore : WalletInterface Unit :=
  { GetBalance := fun _ st => ((0, some "balance not found"), st)
    UpdateBalance := fun _ _ _ st => ((false, some "wallet not found"), st)
    CreateWallet := fun _ st => ((true, none), st) }

/-! ## Concurrent calls of `UpdateBalance`

Each call of `WalletRepository.UpdateBalance` over a driver that does not fail is cut at
its four database statements: `BeginTx`, `SELECT ... FOR UPDATE`, `UPDATE` (with the
`switch` before it and `RowsAffected` after it) and `Commit`. Calls running at the same
time take these steps in any order. The database gives the row lock of
`SELECT ... FOR UPDATE` to one open transaction at a time: a call whose row is locked by
another transaction cannot take that step until the lock is released by `Commit` or
`Rollback`, and it then reads the committed balance. -/

/-- Arguments of one call of `UpdateBalance`. -/
structure Call where
  walletID : UUID
  operationType : OperationType
  amount : Nat
  deriving DecidableEq, Repr

/-- Point a call of `UpdateBalance` has reached, with its local variables. -/
inductive Pc where
  | start
  | begun
  | locked (balance : Nat)
  | updated (newBalance : Nat)
  | returned (ret : Bool × Error)
  deriving DecidableEq, Repr

/-- A running call. -/
structure Proc where
  call : Call
  pc : Pc
  deriving DecidableEq, Repr

/-- What the running calls share: the committed rows and the rows locked by an open
transaction. -/
structure Shared where
  rows : UUID → Option Nat
  locked : UUID → Bool

/-- Lock or unlock one row. -/
def Shared.setLocked (sh : Shared) (id : UUID) (b : Bool) : Shared :=
  { sh with locked := fun j => if j = id then b else sh.locked j }

/-- Commit a balance: the row is written and its lock released. -/
def Shared.commit (sh : Shared) (id : UUID) (balance : Nat) : Shared :=
  { rows := fun j => if j = id then some balance else sh.rows j
    locked := fun j => if j = id then false else sh.locked j }

/-- One step of a call of `UpdateBalance`; `none` when the call has returned or waits for
the row lock. -/
def Proc.step (p : Proc) (sh : Shared) : Option (Proc × Shared) :=
  match p.pc with
  | .start => some ({ p with pc := .begun }, sh)
  | .begun =>
    match sh.rows p.call.walletID with
    | none => some ({ p with pc := .returned (false, some "wallet not found") }, sh)
    | some v =>
      if sh.locked p.call.walletID then
        none
      else
        match scanUint v with
        | .error err =>
          some ({ p with pc := .returned (false, some ("failed to get balance: " ++ err)) },
            sh.setLocked p.call.walletID true)
        | .ok balance =>
          some ({ p with pc := .locked balance }, sh.setLocked p.call.walletID true)
  | .locked balance =>
    if p.call.operationType = OperationTypeDeposit then
      if (sh.rows p.call.walletID).isSome then
        some ({ p with pc := .updated ((balance + p.call.amount) % uintSize) }, sh)
      else
        some ({ p with pc := .returned (false, some "failed to update wallet") }, sh)
    else if p.call.operationType = OperationTypeWithdraw then
      if balance < p.call.amount then
        some ({ p with pc := .returned (false, some "insufficient funds") },
          sh.setLocked p.call.walletID false)
      else if (sh.rows p.call.walletID).isSome then
        some ({ p with pc := .updated (balance - p.call.amount) }, sh)
      else
        some ({ p with pc := .returned (false, some "failed to update wallet") }, sh)
    else
      some ({ p with pc := .returned (false, some "invalid operation type") }, sh)
  | .updated newBalance =>
    some ({ p with pc := .returned (true, none) }, sh.commit p.call.walletID newBalance)
  | .returned _ => none

/-- The running calls and what they share. -/
structure Sys where
  procs : List Proc
  shared : Shared

/-- Step of the call at position `i` of a list of calls. -/
def stepAt : List Proc → Nat → Shared → Option (List Proc × Shared)
  | [], _, _ => none
  | p :: ps, 0, sh =>
    match p.step sh with
    | none => none
    | some (q, sh1) => some (q :: ps, sh1)
  | p :: ps, i + 1, sh =>
    match stepAt ps i sh with
    | none => none
    | some (qs, sh1) => some (p :: qs, sh1)

/-- Step of the call at position `i`; `none` when that call cannot move. -/
def Sys.step (s : Sys) (i : Nat) : Option Sys :=
  match stepAt s.procs i s.shared with
  | none => none
  | some (qs, sh) => some { procs := qs, shared := sh }

/-- Run a schedule: the list of the positions of the calls that step, in order; `none`
when the schedule asks a call to step that cannot. -/
def Sys.run : Sys → List Nat → Option Sys
  | s, [] => some s
  | s, i :: sch =>
    match s.step i with
    | none => none
    | some s1 => Sys.run s1 sch

/-- The given calls, all about to start, over a table without locked rows. -/
def concurrentCalls (rows : UUID → Option Nat) (calls : List Call) : Sys :=
  { procs := calls.map (fun c => { call := c, pc := .start })
    shared := { rows := rows, locked := fun _ => false } }

/-- The call `UpdateBalance(walletID, DEPOSIT, 1)`. -/
def depositOne (walletID : UUID) : Call :=
  { walletID := walletID, operationType := OperationTypeDeposit, amount := 1 }

/-- A call running alone: up to `fuel` steps. -/
def Proc.runAlone : Nat → Proc → Shared → Proc × Shared
  | 0, p, sh => (p, sh)
  | fuel + 1, p, sh =>
    match p.step sh with
    | none => (p, sh)
    | some (q, sh1) => Proc.runAlone fuel q sh1

/-- Number of steps a call has taken on the path of a successful call. -/
def Pc.weight : Pc → Nat
  | .start => 0
  | .begun => 1
  | .locked _ => 2
  | .updated _ => 3
  | .returned _ => 4

/-- Whether the call holds the row lock on the path of a successful call. -/
def Pc.holds : Pc → Bool
  | .locked _ => true
  | .updated _ => true
  | _ => false

/-- Whether the call has returned. -/
def Pc.isReturned : Pc → Bool
  | .returned _ => true
  | _ => false

/-- Total number of steps taken. -/
def totalWeight : List Proc → Nat
  | [] => 0
  | p :: ps => p.pc.weight + totalWeight ps

/-- Number of calls holding the row lock. -/
def holders : List Proc → Nat
  | [] => 0
  | p :: ps => (if p.pc.holds then 1 else 0) + holders ps

/-- Number of calls that have returned. -/
def returnedCount : List Proc → Nat
  | [] => 0
  | p :: ps => (if p.pc.isReturned then 1 else 0) + returnedCount ps

/-- Consistency of the local variables of a call with the committed balance `cur`. -/
def Pc.okAt (cur : Nat) : Pc → Prop
  | .start => True
  | .begun => True
  | .locked balance => balance = cur
  | .updated newBalance => newBalance = cur + 1
  | .returned ret => ret = (true, none)

/-- Two calls `UpdateBalance(1, DEPOSIT, 1)` about to start on a wallet holding 10. -/
def twoDeposits : Sys :=
  concurrentCalls (fun j => if j = 1 then some 10 else none) (List.replicate 2 (depositOne 1))

/-- The two deposits after the schedule in which the second call reaches its locked read
while the first holds the row lock, and proceeds once the first has committed. -/
def twoDepositsEnd : Sys :=
  (Sys.run twoDeposits [0, 1, 0, 0, 0, 1, 1, 1]).getD twoDeposits

/-- What holds of the concurrent deposits of 1 into wallet `id` that start from balance
`B`, at every point of every schedule. -/
def DepositsInv (id : UUID) (B N : Nat) (s : Sys) : Prop :=
  s.procs.length = N
  ∧ (∀ p ∈ s.procs, p.call = depositOne id)
  ∧ s.shared.rows id = some (B + returnedCount s.procs)
  ∧ (∀ p ∈ s.procs, p.pc.okAt (B + returnedCount s.procs))
  ∧ holders s.procs = (if s.shared.locked id then 1 else 0)

/-! ## Lemmas on `strings.Contains` -/

theorem startsWith_append_self (a b : List Char) : startsWith (a ++ b) a = true := by
  induction a with
  | nil => cases b <;> rfl
  | cons c a ih => simpa [startsWith] using ih

theorem containsChars_of_startsWith (s p : List Char) (h : startsWith s p = true) :
    containsChars s p = true := by
  cases s with
  | nil => simpa [containsChars] using h
  | cons c s => simp [containsChars, h]

theorem startsWith_append_of_not_agree (s b p : List Char) (h : agree s p = false) :
    startsWith (s ++ b) p = false := by
  induction s generalizing p with
  | nil => simp [agree] at h
  | cons c s ih =>
    cases p with
    | nil => simp [agree] at h
    | cons d p =>
      simp only [agree, Bool.and_eq_false_iff] at h
      simp only [List.cons_append, startsWith, Bool.and_eq_false_iff]
      rcases h with h | h
      · exact Or.inl h
      · exact Or.inr (ih p h)

theorem containsChars_append_of_noOverlap (a b p : List Char) (h : noOverlap a p = true) :
    containsChars (a ++ b) p = containsChars b p := by
  induction a with
  | nil => rfl
  | cons c a ih =>
    simp only [noOverlap, Bool.and_eq_true, Bool.not_eq_true'] at h
    have h1 := startsWith_append_of_not_agree (c :: a) b p h.1
    rw [List.cons_append] at h1
    rw [List.cons_append, containsChars, h1, Bool.false_or]
    exact ih h.2

theorem containsChars_tail (s q : List Char) (c : Char)
    (h : containsChars s (c :: q) = true) : containsChars s q = true := by
  induction s with
  | nil => simp [containsChars, startsWith] at h
  | cons x s ih =>
    rw [containsChars, Bool.or_eq_true] at h
    have hs : containsChars s q = true := by
      rcases h with h | h
      · rw [startsWith, Bool.and_eq_true] at h
        exact containsChars_of_startsWith _ _ h.2
      · exact ih h
    rw [containsChars, hs, Bool.or_true]

theorem containsChars_drop (s a p : List Char) (h : containsChars s (a ++ p) = true) :
    containsChars s p = true := by
  induction a with
  | nil => exact h
  | cons c a ih => exact ih (containsChars_tail s (a ++ p) c h)

/-- A text without "not found" does not contain "balance not found". -/
theorem no_balance_not_found (e : String) (h : stringsContains e "not found" = false) :
    stringsContains e "balance not found" = false := by
  cases hc : stringsContains e "balance not found" with
  | false => rfl
  | true =>
    have hd : "balance not found".data = "balance ".data ++ "not found".data := by decide
    unfold stringsContains at hc h
    rw [hd] at hc
    rw [containsChars_drop _ _ _ hc] at h
    exact absurd h (by decide)

/-- A fixed text that cannot overlap `substr` can be dropped from the front. -/
theorem stringsContains_append (a e substr : String) (h : noOverlap a.data substr.data = true) :
    stringsContains (a ++ e) substr = stringsContains e substr := by
  unfold stringsContains
  rw [String.data_append]
  exact containsChars_append_of_noOverlap _ _ _ h

/-- A text contains each of its initial segments. -/
theorem stringsContains_append_self (a c e : String) :
    stringsContains (a ++ c ++ e) a = true := by
  unfold stringsContains
  rw [String.data_append, String.data_append, List.append_assoc]
  exact containsChars_of_startsWith _ _ (startsWith_append_self _ _)

/-! ## Lemmas on the repository over a healthy driver -/

theorem toUint_of_range (a : Int) (h0 : 0 ≤ a) (h1 : a < (uintSize : Int)) :
    toUint a = a.toNat := by
  unfold toUint
  rw [Int.emod_eq_of_lt h0 h1]

theorem healthy_update_absent (walletID : UUID) (operationType : OperationType) (amount : Nat)
    (st : Db) (hrow : st.rows walletID = none) :
    (NewWalletRepository Driver.healthy).UpdateBalance walletID operationType amount st
      = ((false, some "wallet not found"),
          (st.record .beginTx).record (.selectForUpdate walletID)) := by
  simp [WalletRepository.UpdateBalance, NewWalletRepository, Driver.healthy, Db.record, hrow]

theorem healthy_update_deposit (walletID : UUID) (amount b : Nat) (st : Db)
    (hrow : st.rows walletID = some b) (hb : b < uintSize) :
    (NewWalletRepository Driver.healthy).UpdateBalance walletID OperationTypeDeposit amount st
      = ((true, none),
          ((((st.record .beginTx).record (.selectForUpdate walletID)).record
            (.update walletID ((b + amount) % uintSize))).record .commit).setRow walletID
            ((b + amount) % uintSize)) := by
  simp [WalletRepository.UpdateBalance, NewWalletRepository, Driver.healthy, Db.record, hrow,
    scanUint, hb, switchOperation]

theorem healthy_update_withdraw (walletID : UUID) (amount b : Nat) (st : Db)
    (hrow : st.rows walletID = some b) (hb : b < uintSize) (hle : amount ≤ b) :
    (NewWalletRepository Driver.healthy).UpdateBalance walletID OperationTypeWithdraw amount st
      = ((true, none),
          ((((st.record .beginTx).record (.selectForUpdate walletID)).record
            (.update walletID (b - amount))).record .commit).setRow walletID (b - amount)) := by
  have hne : OperationTypeWithdraw ≠ OperationTypeDeposit := by decide
  simp [WalletRepository.UpdateBalance, NewWalletRepository, Driver.healthy, Db.record, hrow,
    scanUint, hb, switchOperation, hne, Nat.not_lt.mpr hle]

theorem healthy_update_withdraw_short (walletID : UUID) (amount b : Nat) (st : Db)
    (hrow : st.rows walletID = some b) (hb : b < uintSize) (hlt : b < amount) :
    (NewWalletRepository Driver.healthy).UpdateBalance walletID OperationTypeWithdraw amount st
      = ((false, some "insufficient funds"),
          (((st.record .beginTx).record (.selectForUpdate walletID)).record .rollback)) := by
  have hne : OperationTypeWithdraw ≠ OperationTypeDeposit := by decide
  simp [WalletRepository.UpdateBalance, NewWalletRepository, Driver.healthy, Db.record, hrow,
    scanUint, hb, switchOperation, hne, hlt]

theorem healthy_create_absent (walletID : UUID) (st : Db) (hrow : st.rows walletID = none) :
    (NewWalletRepository Driver.healthy).CreateWallet walletID st
      = ((true, none), (st.record (.insert walletID)).setRow walletID 0) := by
  simp [WalletRepository.CreateWallet, NewWalletRepository, Driver.healthy, Db.record, hrow]

theorem healthy_create_present (walletID : UUID) (b : Nat) (st : Db)
    (hrow : st.rows walletID = some b) :
    (NewWalletRepository Driver.healthy).CreateWallet walletID st
      = ((false, none), st.record (.insert walletID)) := by
  simp [WalletRepository.CreateWallet, NewWalletRepository, Driver.healthy, Db.record, hrow]

/-! ## C1 -/

/-- C1: for a wallet with stored balance `b` and an amount `a > b`, the repository's
`UpdateBalance(id, WITHDRAW, a)` returns `false` with the error "insufficient funds";
no balance changes and the only statements issued are the opening of the transaction,
the locked read and the rollback (no `UPDATE`). -/
theorem C1_withdraw_above_balance (r : WalletRepository) (walletID : UUID) (b a : Nat)
    (st : Db) (hbegin : r.db.beginTx = none) (hquery : r.db.query = none)
    (hrow : st.rows walletID = some b) (ha : a < uintSize) (hab : b < a) :
    (∃ msg, (r.UpdateBalance walletID OperationTypeWithdraw a st).1 = (false, some msg)
        ∧ stringsContains msg "insufficient funds" = true)
    ∧ (r.UpdateBalance walletID OperationTypeWithdraw a st).2.rows = st.rows
    ∧ (r.UpdateBalance walletID OperationTypeWithdraw a st).2.rows walletID = some b
    ∧ (r.UpdateBalance walletID OperationTypeWithdraw a st).2.calls
        = st.calls ++ [.beginTx, .selectForUpdate walletID, .rollback] := by
  have hne : OperationTypeWithdraw ≠ OperationTypeDeposit := by decide
  have hb : b < uintSize := Nat.lt_trans hab ha
  have hcontains : stringsContains "insufficient funds" "insufficient funds" = true := by
    decide
  refine ⟨⟨"insufficient funds", ?_, hcontains⟩, ?_, ?_, ?_⟩ <;>
    simp [WalletRepository.UpdateBalance, hbegin, hquery, Db.record, hrow, scanUint, hb,
      switchOperation, hne, hab]

/-- Instance of C1 at balance 700 and amount 1000. -/
theorem C1_withdraw_above_balance_witness :
    (∃ msg, ((NewWalletRepository Driver.healthy).UpdateBalance 1 OperationTypeWithdraw 1000
        (Db.empty.setRow 1 700)).1 = (false, some msg)
        ∧ stringsContains msg "insufficient funds" = true)
    ∧ ((NewWalletRepository Driver.healthy).UpdateBalance 1 OperationTypeWithdraw 1000
        (Db.empty.setRow 1 700)).2.rows = (Db.empty.setRow 1 700).rows
    ∧ ((NewWalletRepository Driver.healthy).UpdateBalance 1 OperationTypeWithdraw 1000
        (Db.empty.setRow 1 700)).2.rows 1 = some 700
    ∧ ((NewWalletRepository Driver.healthy).UpdateBalance 1 OperationTypeWithdraw 1000
        (Db.empty.setRow 1 700)).2.calls
        = (Db.empty.setRow 1 700).calls ++ [.beginTx, .selectForUpdate 1, .rollback] :=
  C1_withdraw_above_balance (NewWalletRepository Driver.healthy) 1 700 1000
    (Db.empty.setRow 1 700) rfl rfl (by decide) (by decide) (by decide)

/-! ## Lemmas on the service over a healthy driver -/

theorem service_deposit (walletID : UUID) (a : Int) (b : Nat) (st : Db)
    (hrow : st.rows walletID = some b) (ha : 0 < a) (hsum : (b : Int) + a < (uintSize : Int)) :
    (healthyService.UpdateBalance walletID OperationTypeDeposit a st).1 = (true, none)
    ∧ (healthyService.UpdateBalance walletID OperationTypeDeposit a st).2.rows walletID
        = some (b + a.toNat) := by
  have hb : b < uintSize := by
    have : (b : Int) < (uintSize : Int) := by omega
    exact_mod_cast this
  have hconv : toUint a = a.toNat := toUint_of_range a (le_of_lt ha) (by omega)
  have hmod : (b + a.toNat) % uintSize = b + a.toNat := by
    apply Nat.mod_eq_of_lt
    have : ((b + a.toNat : Nat) : Int) < (uintSize : Int) := by
      rw [Nat.cast_add, Int.toNat_of_nonneg (le_of_lt ha)]
      exact hsum
    exact_mod_cast this
  have hstep := healthy_update_deposit walletID a.toNat b st hrow hb
  simp only [WalletService.UpdateBalance, healthyService, NewWalletService,
    WalletRepository.toInterface, hconv, hstep, hmod]
  simp [Int.not_le.mpr ha, Db.setRow]

theorem service_withdraw (walletID : UUID) (a : Int) (b : Nat) (st : Db)
    (hrow : st.rows walletID = some b) (hb : b < uintSize) (ha : 0 < a) (hle : a ≤ (b : Int)) :
    (healthyService.UpdateBalance walletID OperationTypeWithdraw a st).1 = (true, none)
    ∧ (healthyService.UpdateBalance walletID OperationTypeWithdraw a st).2.rows walletID
        = some (b - a.toNat) := by
  have hbi : (b : Int) < (uintSize : Int) := by exact_mod_cast hb
  have hconv : toUint a = a.toNat := toUint_of_range a (le_of_lt ha) (by omega)
  have hle2 : a.toNat ≤ b := by omega
  have hstep := healthy_update_withdraw walletID a.toNat b st hrow hb hle2
  have hne : OperationTypeWithdraw ≠ OperationTypeDeposit := by decide
  simp only [WalletService.UpdateBalance, healthyService, NewWalletService,
    WalletRepository.toInterface, hconv, hstep]
  simp [Int.not_le.mpr ha, Db.setRow, hne]

theorem service_withdraw_short (walletID : UUID) (a : Int) (b : Nat) (st : Db)
    (hrow : st.rows walletID = some b) (hb : b < uintSize) (ha : (b : Int) < a)
    (hrange : a < (uintSize : Int)) :
    (healthyService.UpdateBalance walletID OperationTypeWithdraw a st).1
        = (false, some "failed to update balance: insufficient funds")
    ∧ (healthyService.UpdateBalance walletID OperationTypeWithdraw a st).2.rows = st.rows := by
  have hpos : 0 < a := by omega
  have hconv : toUint a = a.toNat := toUint_of_range a (le_of_lt hpos) hrange
  have hlt : b < a.toNat := by omega
  have hstep := healthy_update_withdraw_short walletID a.toNat b st hrow hb hlt
  have hne : OperationTypeWithdraw ≠ OperationTypeDeposit := by decide
  simp only [WalletService.UpdateBalance, healthyService, NewWalletService,
    WalletRepository.toInterface, hconv, hstep]
  simp [Int.not_le.mpr hpos, Db.record, hne]

theorem totalOf_cons_same (operationType : OperationType) (a : Int)
    (rest : List (OperationType × Int)) :
    totalOf operationType ((operationType, a) :: rest) = a + totalOf operationType rest := by
  simp [totalOf]

theorem totalOf_cons_other (operationType other : OperationType) (a : Int)
    (rest : List (OperationType × Int)) (h : other ≠ operationType) :
    totalOf operationType ((other, a) :: rest) = totalOf operationType rest := by
  simp [totalOf, h]

theorem totalOf_nonneg (operationType : OperationType) (ops : List (OperationType × Int))
    (hpos : ∀ p ∈ ops, 0 < p.2) : 0 ≤ totalOf operationType ops := by
  induction ops with
  | nil => simp [totalOf]
  | cons p rest ih =>
    obtain ⟨k, a⟩ := p
    have hrest : ∀ q ∈ rest, 0 < q.2 := fun q hq => hpos q (List.mem_cons_of_mem _ hq)
    have ha : 0 < a := hpos (k, a) (List.mem_cons_self _ _)
    by_cases hk : k = operationType
    · subst hk
      rw [totalOf_cons_same]
      have := ih hrest
      omega
    · rw [totalOf_cons_other _ _ _ _ hk]
      exact ih hrest

theorem totalOf_perm (operationType : OperationType) (xs ys : List (OperationType × Int))
    (h : xs.Perm ys) : totalOf operationType xs = totalOf operationType ys := by
  unfold totalOf
  exact ((h.filter _).map _).sum_eq

/-- Sequential application of a list whose withdrawals fit the starting balance. -/
theorem applyOps_seq (walletID : UUID) (ops : List (OperationType × Int)) :
    ∀ (B : Nat) (st : Db), st.rows walletID = some B →
      (∀ p ∈ ops, p.1 = OperationTypeDeposit ∨ p.1 = OperationTypeWithdraw) →
      (∀ p ∈ ops, 0 < p.2) →
      totalOf OperationTypeWithdraw ops ≤ (B : Int) →
      (B : Int) + totalOf OperationTypeDeposit ops < (uintSize : Int) →
      (applyOps healthyService walletID ops st).1 = List.replicate ops.length (true, none)
      ∧ ∃ b : Nat, (applyOps healthyService walletID ops st).2.rows walletID = some b
          ∧ (b : Int) = (B : Int) + totalOf OperationTypeDeposit ops
              - totalOf OperationTypeWithdraw ops := by
  induction ops with
  | nil =>
    intro B st hrow _ _ _ _
    refine ⟨by simp [applyOps], B, by simpa [applyOps] using hrow, by simp [totalOf]⟩
  | cons p rest ih =>
    intro B st hrow hkind hpos hw hrange
    obtain ⟨k, a⟩ := p
    have hne : OperationTypeWithdraw ≠ OperationTypeDeposit := by decide
    have hkrest : ∀ q ∈ rest, q.1 = OperationTypeDeposit ∨ q.1 = OperationTypeWithdraw :=
      fun q hq => hkind q (List.mem_cons_of_mem _ hq)
    have hprest : ∀ q ∈ rest, 0 < q.2 := fun q hq => hpos q (List.mem_cons_of_mem _ hq)
    have ha : 0 < a := hpos (k, a) (List.mem_cons_self _ _)
    have hdn := totalOf_nonneg OperationTypeDeposit rest hprest
    have hwn := totalOf_nonneg OperationTypeWithdraw rest hprest
    rcases hkind (k, a) (List.mem_cons_self _ _) with hk | hk
    · simp only at hk
      subst hk
      rw [totalOf_cons_same] at hrange
      rw [totalOf_cons_other _ _ _ _ hne.symm] at hw
      obtain ⟨h1, h2⟩ := service_deposit walletID a B st hrow ha (by omega)
      obtain ⟨ih1, b, ihb, ihv⟩ := ih (B + a.toNat) _ h2 hkrest hprest
        (by push_cast; omega) (by push_cast; omega)
      refine ⟨?_, b, ?_, ?_⟩
      · simp only [applyOps, h1, ih1, List.length_cons, List.replicate_succ]
      · simpa only [applyOps] using ihb
      · rw [totalOf_cons_same, totalOf_cons_other _ _ _ _ hne.symm, ihv]
        push_cast
        omega
    · simp only at hk
      subst hk
      rw [totalOf_cons_same] at hw
      rw [totalOf_cons_other _ _ _ _ hne] at hrange
      have hB : B < uintSize := by
        have : (B : Int) < (uintSize : Int) := by omega
        exact_mod_cast this
      obtain ⟨h1, h2⟩ := service_withdraw walletID a B st hrow hB ha (by omega)
      have hsub : ((B - a.toNat : Nat) : Int) = (B : Int) - a := by omega
      obtain ⟨ih1, b, ihb, ihv⟩ := ih (B - a.toNat) _ h2 hkrest hprest
        (by omega) (by omega)
      refine ⟨?_, b, ?_, ?_⟩
      · simp only [applyOps, h1, ih1, List.length_cons, List.replicate_succ]
      · simpa only [applyOps] using ihb
      · rw [totalOf_cons_same, totalOf_cons_other _ _ _ _ hne, ihv]
        omega

theorem service_update_absent (walletID : UUID) (operationType : OperationType) (a : Int)
    (st : Db) (hrow : st.rows walletID = none) (ha : 0 < a)
    (hkind : operationType = OperationTypeDeposit ∨ operationType = OperationTypeWithdraw) :
    healthyService.UpdateBalance walletID operationType a st
      = ((false, some "failed to update balance: wallet not found"),
          (st.record .beginTx).record (.selectForUpdate walletID)) := by
  have hstep := healthy_update_absent walletID operationType (toUint a) st hrow
  have hk : ¬ (operationType ≠ OperationTypeDeposit ∧ operationType ≠ OperationTypeWithdraw) := by
    intro h
    rcases hkind with h1 | h1
    · exact h.1 h1
    · exact h.2 h1
  simp only [WalletService.UpdateBalance, healthyService, NewWalletService,
    WalletRepository.toInterface, hstep, if_neg hk, if_neg (Int.not_le.mpr ha)]
  rfl

theorem service_create_absent (walletID : UUID) (st : Db) (hrow : st.rows walletID = none) :
    healthyService.CreateWallet walletID st
      = ((true, none), (st.record (.insert walletID)).setRow walletID 0) := by
  have hstep := healthy_create_absent walletID st hrow
  simp only [WalletService.CreateWallet, healthyService, NewWalletService,
    WalletRepository.toInterface, hstep]

theorem service_get_present (walletID : UUID) (b : Nat) (st : Db)
    (hrow : st.rows walletID = some b) (hb : b < intSize) :
    healthyService.GetBalance walletID st
      = (((b : Int), none), st.record (.select walletID)) := by
  simp [WalletService.GetBalance, healthyService, NewWalletService,
    WalletRepository.toInterface, WalletRepository.GetBalance, NewWalletRepository,
    Driver.healthy, Db.record, hrow, scanInt, hb]

/-! ## C2 -/

/-- C2: for a wallet with balance `B` and a list of DEPOSIT and WITHDRAW requests with
positive amounts whose withdrawals sum to at most `B` and whose deposits keep the balance
within the `uint` range, applying the list in any order through
`WalletService.UpdateBalance` makes every call return `(true, nil)` and leaves the balance
`B + deposited - withdrawn`. -/
theorem C2_sequence_balance (walletID : UUID) (B : Nat) (ops : List (OperationType × Int))
    (st : Db) (hrow : st.rows walletID = some B)
    (hkind : ∀ p ∈ ops, p.1 = OperationTypeDeposit ∨ p.1 = OperationTypeWithdraw)
    (hpos : ∀ p ∈ ops, 0 < p.2)
    (hw : totalOf OperationTypeWithdraw ops ≤ (B : Int))
    (hrange : (B : Int) + totalOf OperationTypeDeposit ops < (uintSize : Int))
    (order : List (OperationType × Int)) (horder : order.Perm ops) :
    (applyOps healthyService walletID order st).1 = List.replicate order.length (true, none)
    ∧ ∃ b : Nat, (applyOps healthyService walletID order st).2.rows walletID = some b
        ∧ (b : Int) = (B : Int) + totalOf OperationTypeDeposit ops
            - totalOf OperationTypeWithdraw ops := by
  have hd := totalOf_perm OperationTypeDeposit order ops horder
  have hwd := totalOf_perm OperationTypeWithdraw order ops horder
  have h := applyOps_seq walletID order B st hrow
    (fun p hp => hkind p (horder.subset hp)) (fun p hp => hpos p (horder.subset hp))
    (by rw [hwd]; exact hw) (by rw [hd]; exact hrange)
  rw [hd, hwd] at h
  exact h

/-- Instance of C2: balance 1000, a deposit of 1000 and a withdrawal of 300, applied with
the withdrawal first. -/
theorem C2_sequence_balance_witness :
    (applyOps healthyService 1 [(OperationTypeWithdraw, 300), (OperationTypeDeposit, 1000)]
        (Db.empty.setRow 1 1000)).1 = List.replicate 2 (true, none)
    ∧ ∃ b : Nat, (applyOps healthyService 1
          [(OperationTypeWithdraw, 300), (OperationTypeDeposit, 1000)]
          (Db.empty.setRow 1 1000)).2.rows 1 = some b
        ∧ (b : Int) = ((1000 : Nat) : Int)
            + totalOf OperationTypeDeposit
                [(OperationTypeDeposit, 1000), (OperationTypeWithdraw, 300)]
            - totalOf OperationTypeWithdraw
                [(OperationTypeDeposit, 1000), (OperationTypeWithdraw, 300)] :=
  C2_sequence_balance 1 1000 [(OperationTypeDeposit, 1000), (OperationTypeWithdraw, 300)]
    (Db.empty.setRow 1 1000) (by decide) (by decide) (by decide) (by decide) (by decide)
    [(OperationTypeWithdraw, 300), (OperationTypeDeposit, 1000)] (List.Perm.swap _ _ _)

/-! ## C3 -/

/-- C3: for a wallet whose stored balance `b` is one the store holds (below `2 ^ 63`)
and a strictly positive amount `a` (a Go `int`), `UpdateBalance(id, DEPOSIT, a)` followed
by `UpdateBalance(id, WITHDRAW, a)` both succeed and the stored balance is `b` again. -/
theorem C3_round_trip (walletID : UUID) (b : Nat) (a : Int) (st : Db)
    (hrow : st.rows walletID = some b) (hb : b < intSize) (ha : 0 < a)
    (hint : a < (intSize : Int)) :
    (applyOps healthyService walletID
        [(OperationTypeDeposit, a), (OperationTypeWithdraw, a)] st).1
      = [(true, none), (true, none)]
    ∧ (applyOps healthyService walletID
        [(OperationTypeDeposit, a), (OperationTypeWithdraw, a)] st).2.rows walletID
      = some b := by
  have hrange : (b : Int) + a < (uintSize : Int) := by
    have h1 : (b : Int) < (intSize : Int) := by exact_mod_cast hb
    have h2 : (intSize : Int) + (intSize : Int) = (uintSize : Int) := by
      have : intSize + intSize = uintSize := by decide
      exact_mod_cast this
    omega
  obtain ⟨h1, h2⟩ := service_deposit walletID a b st hrow ha hrange
  have hlt : b + a.toNat < uintSize := by
    have : ((b + a.toNat : Nat) : Int) < (uintSize : Int) := by
      rw [Nat.cast_add, Int.toNat_of_nonneg (le_of_lt ha)]
      exact hrange
    exact_mod_cast this
  obtain ⟨h3, h4⟩ := service_withdraw walletID a (b + a.toNat) _ h2 hlt ha (by omega)
  refine ⟨?_, ?_⟩
  · simp only [applyOps, h1, h3]
  · simp only [applyOps, h4]
    congr 1
    omega

/-- Instance of C3 at balance 700 and amount 1000. -/
theorem C3_round_trip_witness :
    (applyOps healthyService 1
        [(OperationTypeDeposit, 1000), (OperationTypeWithdraw, 1000)]
        (Db.empty.setRow 1 700)).1
      = [(true, none), (true, none)]
    ∧ (applyOps healthyService 1
        [(OperationTypeDeposit, 1000), (OperationTypeWithdraw, 1000)]
        (Db.empty.setRow 1 700)).2.rows 1
      = some 700 :=
  C3_round_trip 1 700 1000 (Db.empty.setRow 1 700) (by decide) (by decide) (by decide)
    (by decide)

/-! ## C4 -/

/-- C4: `CreateWallet` returns `(true, nil)` exactly when the identifier had no wallet and
`(false, nil)` when it had one; afterwards the wallet holds 0 if it was absent and its
former balance otherwise, and the other wallets are untouched. A second call returns
`(false, nil)` and leaves the same balance. -/
theorem C4_create_idempotent (r : WalletRepository) (walletID : UUID) (st : Db)
    (hexec : r.db.exec = none) (hra : r.db.rowsAffected = none) :
    (r.CreateWallet walletID st).1 = ((st.rows walletID).isNone, none)
    ∧ (r.CreateWallet walletID st).2.rows walletID = some ((st.rows walletID).getD 0)
    ∧ (∀ j, j ≠ walletID → (r.CreateWallet walletID st).2.rows j = st.rows j)
    ∧ (r.CreateWallet walletID (r.CreateWallet walletID st).2).1 = (false, none)
    ∧ (r.CreateWallet walletID (r.CreateWallet walletID st).2).2.rows walletID
        = some ((st.rows walletID).getD 0)
    ∧ (∀ j, j ≠ walletID →
        (r.CreateWallet walletID (r.CreateWallet walletID st).2).2.rows j = st.rows j) := by
  cases hrow : st.rows walletID with
  | none =>
    refine ⟨?_, ?_, ?_, ?_, ?_, ?_⟩ <;>
      simp +contextual [WalletRepository.CreateWallet, hexec, hra, Db.record, Db.setRow, hrow]
  | some b =>
    refine ⟨?_, ?_, ?_, ?_, ?_, ?_⟩ <;>
      simp [WalletRepository.CreateWallet, hexec, hra, Db.record, Db.setRow, hrow]

/-- Instance of C4 on a never-seen identifier: `true`, then `false`, balance 0. -/
theorem C4_create_idempotent_witness :
    ((NewWalletRepository Driver.healthy).CreateWallet 1 Db.empty).1
        = ((Db.empty.rows 1).isNone, none)
    ∧ ((NewWalletRepository Driver.healthy).CreateWallet 1 Db.empty).2.rows 1
        = some ((Db.empty.rows 1).getD 0)
    ∧ (∀ j, j ≠ 1 →
        ((NewWalletRepository Driver.healthy).CreateWallet 1 Db.empty).2.rows j
          = Db.empty.rows j)
    ∧ ((NewWalletRepository Driver.healthy).CreateWallet 1
        ((NewWalletRepository Driver.healthy).CreateWallet 1 Db.empty).2).1 = (false, none)
    ∧ ((NewWalletRepository Driver.healthy).CreateWallet 1
        ((NewWalletRepository Driver.healthy).CreateWallet 1 Db.empty).2).2.rows 1
        = some ((Db.empty.rows 1).getD 0)
    ∧ (∀ j, j ≠ 1 →
        ((NewWalletRepository Driver.healthy).CreateWallet 1
          ((NewWalletRepository Driver.healthy).CreateWallet 1 Db.empty).2).2.rows j
          = Db.empty.rows j) :=
  C4_create_idempotent (NewWalletRepository Driver.healthy) 1 Db.empty rfl rfl

/-! ## C5 -/

/-- C5: for an identifier without a wallet and a strictly positive amount `a` (a Go
`int`), a DEPOSIT request handled by `ProcessOperation` answers 200, leaves a wallet for
the identifier whose balance is `a`, and a following `GetBalance` answers 200 with `a`. -/
theorem C5_auto_provision (walletID : UUID) (a : Int) (st : Db)
    (hrow : st.rows walletID = none) (ha : 0 < a) (hint : a < (intSize : Int)) :
    ((mainHandler Driver.healthy).ProcessOperation
        (.ok ⟨walletID, OperationTypeDeposit, a⟩) st).1
      = ⟨200, .message "operation completed"⟩
    ∧ (∃ b : Nat, ((mainHandler Driver.healthy).ProcessOperation
          (.ok ⟨walletID, OperationTypeDeposit, a⟩) st).2.rows walletID = some b
        ∧ (b : Int) = a)
    ∧ ((mainHandler Driver.healthy).GetBalance (some walletID)
        ((mainHandler Driver.healthy).ProcessOperation
          (.ok ⟨walletID, OperationTypeDeposit, a⟩) st).2).1
      = ⟨200, .balance a⟩ := by
  have hs : (mainHandler Driver.healthy).service = healthyService := rfl
  have h1 := service_update_absent walletID OperationTypeDeposit a st hrow ha (Or.inl rfl)
  have hc : stringsContains "failed to update balance: wallet not found" "wallet not found"
      = true := by decide
  have h2 := service_create_absent walletID
    ((st.record .beginTx).record (.selectForUpdate walletID)) hrow
  have hrow2 : ((((st.record .beginTx).record (.selectForUpdate walletID)).record
      (.insert walletID)).setRow walletID 0).rows walletID = some 0 := by
    simp [Db.setRow]
  have hisz : intSize < uintSize := by decide
  have h3 := service_deposit walletID a 0 _ hrow2 ha (by
    have : (intSize : Int) < (uintSize : Int) := by exact_mod_cast hisz
    omega)
  obtain ⟨st3, h3f, h3r⟩ : ∃ st3, healthyService.UpdateBalance walletID OperationTypeDeposit a
      ((((st.record .beginTx).record (.selectForUpdate walletID)).record
        (.insert walletID)).setRow walletID 0) = ((true, none), st3)
      ∧ st3.rows walletID = some (0 + a.toNat) := ⟨_, Prod.ext h3.1 rfl, h3.2⟩
  have hlt : 0 + a.toNat < intSize := by
    have : ((0 + a.toNat : Nat) : Int) < (intSize : Int) := by
      rw [Nat.cast_add, Int.toNat_of_nonneg (le_of_lt ha)]
      simpa using hint
    exact_mod_cast this
  have h4 := service_get_present walletID (0 + a.toNat) st3 h3r hlt
  have hval : ((0 + a.toNat : Nat) : Int) = a := by
    rw [Nat.cast_add, Int.toNat_of_nonneg (le_of_lt ha)]
    simp
  have hrun : (mainHandler Driver.healthy).ProcessOperation
      (.ok ⟨walletID, OperationTypeDeposit, a⟩) st
      = (⟨200, .message "operation completed"⟩, st3) := by
    simp only [WalletHandler.ProcessOperation, hs, h1, hc, h2, h3f, if_neg (Int.not_le.mpr ha),
      Bool.true_or, if_true]
  rw [hrun]
  refine ⟨rfl, ⟨0 + a.toNat, h3r, hval⟩, ?_⟩
  simp only [WalletHandler.GetBalance, hs, h4, hval]

/-- Instance of C5: a deposit of 1000 into the empty database. -/
theorem C5_auto_provision_witness :
    ((mainHandler Driver.healthy).ProcessOperation
        (.ok ⟨1, OperationTypeDeposit, 1000⟩) Db.empty).1
      = ⟨200, .message "operation completed"⟩
    ∧ (∃ b : Nat, ((mainHandler Driver.healthy).ProcessOperation
          (.ok ⟨1, OperationTypeDeposit, 1000⟩) Db.empty).2.rows 1 = some b
        ∧ (b : Int) = 1000)
    ∧ ((mainHandler Driver.healthy).GetBalance (some 1)
        ((mainHandler Driver.healthy).ProcessOperation
          (.ok ⟨1, OperationTypeDeposit, 1000⟩) Db.empty).2).1
      = ⟨200, .balance 1000⟩ :=
  C5_auto_provision 1 1000 Db.empty rfl (by decide) (by decide)

/-! ## C6 -/

theorem observed_same {σ : Type} (w : WalletInterface σ)
    (bound : Except String OperationRequest) (st : σ) :
    (processObserved w bound st).1
        = ((NewWalletHandler (NewWalletService w)).ProcessOperation bound st).1
    ∧ (processObserved w bound st).2.1
        = ((NewWalletHandler (NewWalletService w)).ProcessOperation bound st).2 := by
  simp only [processObserved, WalletHandler.ProcessOperation, NewWalletHandler,
    NewWalletService, WalletService.UpdateBalance, WalletService.CreateWallet,
    WalletInterface.observed]
  cases bound with
  | error e => exact ⟨rfl, rfl⟩
  | ok req =>
    rcases h1 : w.UpdateBalance req.WalletID req.OperationType (toUint req.Amount) st
      with ⟨⟨ok1, e1⟩, st1⟩
    rcases hc : w.CreateWallet req.WalletID st with ⟨⟨okc, ec⟩, stc⟩
    rcases hc1 : w.CreateWallet req.WalletID st1 with ⟨⟨okc1, ec1⟩, stc1⟩
    rcases h2 : w.UpdateBalance req.WalletID req.OperationType (toUint req.Amount) stc
      with ⟨⟨ok2, e2⟩, st2⟩
    rcases h21 : w.UpdateBalance req.WalletID req.OperationType (toUint req.Amount) stc1
      with ⟨⟨ok21, e21⟩, st21⟩
    by_cases hamt : req.Amount ≤ 0
    · simp only [if_pos hamt, and_self]
    · simp only [if_neg hamt]
      by_cases hk : req.OperationType ≠ OperationTypeDeposit
          ∧ req.OperationType ≠ OperationTypeWithdraw
      · simp only [if_pos hk, hc]
        cases ec <;> simp only [] <;> (try split_ifs) <;> simp
      · simp only [if_neg hk, h1]
        cases e1 <;> cases ec1 <;> cases e21 <;> simp only [hc1, h21] <;> (try split_ifs) <;> simp

theorem retry_not_found_flags :
    stringsContains ("failed to update balance: " ++ "wallet not found") "insufficient funds"
      = false
    ∧ stringsContains ("failed to update balance: " ++ "wallet not found")
        "invalid operationType" = false
    ∧ stringsContains ("failed to update balance: " ++ "wallet not found")
        "amount cannot be zero" = false := by
  decide

/-- Whatever the store does, one `ProcessOperation` call invokes the store's
`UpdateBalance` at most twice and `CreateWallet` at most once; `CreateWallet` is reached
only through the handler's test of the first error message for "wallet not found" or
"balance not found"; and when the store's retried `UpdateBalance` fails with the error
"wallet not found", the response is 500 and that call is the last one made on the
store. -/
theorem recovery_call_bounds {σ : Type} (w : WalletInterface σ)
    (bound : Except String OperationRequest) (st : σ) :
    (processObserved w bound st).2.2.countP StoreCall.isUpdate ≤ 2
    ∧ (processObserved w bound st).2.2.countP StoreCall.isCreate ≤ 1
    ∧ ((processObserved w bound st).2.2.countP StoreCall.isCreate = 1 →
        ∃ req msg, bound = .ok req
          ∧ ((NewWalletService w).UpdateBalance req.WalletID req.OperationType
              req.Amount st).1.2 = some msg
          ∧ (stringsContains msg "wallet not found"
              || stringsContains msg "balance not found") = true)
    ∧ (∀ e1, updateErrors (processObserved w bound st).2.2 = [e1, some "wallet not found"] →
        (processObserved w bound st).1 = ⟨500, .error "internal server error"⟩
        ∧ ∃ pre c, (processObserved w bound st).2.2 = pre ++ [c] ∧ c.isUpdate = true) := by
  cases bound with
  | error e =>
    simp [processObserved, WalletHandler.ProcessOperation, updateErrors]
  | ok req =>
    rcases h1 : w.UpdateBalance req.WalletID req.OperationType (toUint req.Amount) st
      with ⟨⟨ok1, e1⟩, st1⟩
    rcases hc : w.CreateWallet req.WalletID st with ⟨⟨okc, ec⟩, stc⟩
    rcases hc1 : w.CreateWallet req.WalletID st1 with ⟨⟨okc1, ec1⟩, stc1⟩
    rcases h21 : w.UpdateBalance req.WalletID req.OperationType (toUint req.Amount) stc1
      with ⟨⟨ok21, e21⟩, st21⟩
    by_cases hamt : req.Amount ≤ 0
    · simp [processObserved, WalletHandler.ProcessOperation, if_pos hamt, updateErrors]
    · by_cases hk : req.OperationType ≠ OperationTypeDeposit
          ∧ req.OperationType ≠ OperationTypeWithdraw
      · have hfirst : ((NewWalletService w).UpdateBalance req.WalletID req.OperationType
            req.Amount st).1.2 = some ("invalid operationType: " ++ req.OperationType) := by
          simp only [WalletService.UpdateBalance, if_pos hk]
        simp only [processObserved, WalletHandler.ProcessOperation, NewWalletHandler,
          NewWalletService, WalletService.UpdateBalance, WalletService.CreateWallet,
          WalletInterface.observed, if_neg hamt, if_pos hk, hc]
        cases ec <;> simp only [] <;> (try split_ifs with hnf hins hinv) <;>
          refine ⟨by simp [StoreCall.isUpdate], by simp [StoreCall.isCreate], ?_, ?_⟩ <;>
          first
            | (intro _; exact ⟨req, _, rfl, hfirst, hnf⟩)
            | (intro hcnt; simp [StoreCall.isCreate] at hcnt)
            | (intro e he; simp [updateErrors] at he)
      · cases e1 with
        | none =>
          simp [processObserved, WalletHandler.ProcessOperation, NewWalletHandler,
            NewWalletService, WalletService.UpdateBalance, WalletInterface.observed,
            if_neg hamt, if_neg hk, h1, updateErrors, StoreCall.isUpdate, StoreCall.isCreate]
        | some v =>
          have hfirst : ((NewWalletService w).UpdateBalance req.WalletID req.OperationType
              req.Amount st).1.2 = some ("failed to update balance: " ++ v) := by
            simp only [NewWalletService, WalletService.UpdateBalance, if_neg hk, if_neg hamt, h1]
          cases ec1 <;> cases e21 <;>
            simp only [processObserved, WalletHandler.ProcessOperation, NewWalletHandler,
              NewWalletService, WalletService.UpdateBalance, WalletService.CreateWallet,
              WalletInterface.observed, if_neg hamt, if_neg hk, h1, hc1, h21] <;>
            (try split_ifs with hnf hins hinv) <;>
            refine ⟨by simp [StoreCall.isUpdate], by simp [StoreCall.isCreate], ?_, ?_⟩ <;>
            first
              | (intro _; exact ⟨req, _, rfl, hfirst, hnf⟩)
              | (intro hcnt; simp [StoreCall.isCreate] at hcnt)
              | (intro e he
                 simp only [updateErrors, List.nil_append, List.cons_append, List.cons.injEq,
                   Option.some.injEq, and_true] at he
                 obtain ⟨_, rfl⟩ := he
                 obtain ⟨hA, hB, hC⟩ := retry_not_found_flags
                 first
                   | exact ⟨rfl, [_, _], _, rfl, rfl⟩
                   | simp_all)
              | (intro e he; simp [updateErrors] at he)

/-- C6 (failing input): on the request `valletId = 1, operationType = "wallet not found",
amount = 1` the store's `UpdateBalance` is never called and so never reports a missing
wallet, yet `CreateWallet` is invoked; the retried `WalletService.UpdateBalance` again
returns a message containing "wallet not found" and the response is 400, not 500. -/
theorem C6_invalid_kind_recovery :
    (processObserved (NewWalletRepository Driver.healthy).toInterface
        (.ok ⟨1, "wallet not found", 1⟩) Db.empty).2.2
      = [StoreCall.createWallet 1 (true, none)]
    ∧ (healthyService.UpdateBalance 1 "wallet not found" 1
        (processObserved (NewWalletRepository Driver.healthy).toInterface
          (.ok ⟨1, "wallet not found", 1⟩) Db.empty).2.1).1
      = (false, some "invalid operationType: wallet not found")
    ∧ stringsContains "invalid operationType: wallet not found" "wallet not found" = true
    ∧ (processObserved (NewWalletRepository Driver.healthy).toInterface
        (.ok ⟨1, "wallet not found", 1⟩) Db.empty).1
      = ⟨400, .error "invalid operationType: wallet not found"⟩ := by
  decide

/-- On a store that keeps reporting a missing wallet the retried `UpdateBalance` fails
with "wallet not found", the response is 500 and the retry is the last call. -/
theorem recovery_call_bounds_instance :
    (processObserved missingStore (.ok ⟨1, OperationTypeDeposit, 5⟩) ()).1
      = ⟨500, .error "internal server error"⟩
    ∧ ∃ pre c, (processObserved missingStore (.ok ⟨1, OperationTypeDeposit, 5⟩) ()).2.2
        = pre ++ [c] ∧ c.isUpdate = true :=
  (recovery_call_bounds missingStore (.ok ⟨1, OperationTypeDeposit, 5⟩) ()).2.2.2
    (some "wallet not found") (by decide)

/-! ## C7 -/

/-- A request whose amount is zero or negative is answered 400 and the store is not
called. -/
theorem amount_not_positive_rejected {σ : Type} (h : WalletHandler σ) (req : OperationRequest)
    (st : σ) (hamt : req.Amount ≤ 0) :
    h.ProcessOperation (.ok req) st
      = (⟨400, .error "amount must be greater than zero"⟩, st) := by
  simp only [WalletHandler.ProcessOperation, if_pos hamt]

/-- A request whose operation kind is neither DEPOSIT nor WITHDRAW, and does not contain
the texts that the handler takes for a missing wallet, is answered 400 and the store is
not called. -/
theorem invalid_kind_rejected {σ : Type} (w : WalletInterface σ) (req : OperationRequest)
    (st : σ) (hamt : 0 < req.Amount)
    (hk : req.OperationType ≠ OperationTypeDeposit ∧ req.OperationType ≠ OperationTypeWithdraw)
    (hnf : (stringsContains ("invalid operationType: " ++ req.OperationType) "wallet not found"
      || stringsContains ("invalid operationType: " ++ req.OperationType) "balance not found")
      = false) :
    (processObserved w (.ok req) st).1.status = 400
    ∧ (processObserved w (.ok req) st).2.2 = [] := by
  have hnf2 : ¬ ((stringsContains ("invalid operationType: " ++ req.OperationType)
      "wallet not found"
      || stringsContains ("invalid operationType: " ++ req.OperationType) "balance not found")
      = true) := by
    rw [hnf]
    exact Bool.false_ne_true
  have hinv : stringsContains ("invalid operationType: " ++ req.OperationType)
      "invalid operationType" = true :=
    stringsContains_append_self "invalid operationType" ": " req.OperationType
  simp only [processObserved, WalletHandler.ProcessOperation, NewWalletHandler,
    NewWalletService, WalletService.UpdateBalance, if_neg (Int.not_le.mpr hamt), if_pos hk,
    if_neg hnf2, hinv, Bool.true_or, if_true]
  split_ifs <;> exact ⟨rfl, rfl⟩

/-- C7 (failing input): the request `valletId = 1, operationType = "wallet not found",
amount = 1` on a database without wallets is answered 400, but `CreateWallet` has been
invoked: an `INSERT` was issued and wallet 1 now exists with balance 0. -/
theorem C7_invalid_kind_creates_wallet :
    Db.empty.rows 1 = none
    ∧ ((mainHandler Driver.healthy).ProcessOperation
        (.ok ⟨1, "wallet not found", 1⟩) Db.empty).1
      = ⟨400, .error "invalid operationType: wallet not found"⟩
    ∧ ((mainHandler Driver.healthy).ProcessOperation
        (.ok ⟨1, "wallet not found", 1⟩) Db.empty).2.rows 1 = some 0
    ∧ ((mainHandler Driver.healthy).ProcessOperation
        (.ok ⟨1, "wallet not found", 1⟩) Db.empty).2.calls = [DbCall.insert 1]
    ∧ (processObserved (NewWalletRepository Driver.healthy).toInterface
        (.ok ⟨1, "wallet not found", 1⟩) Db.empty).2.2.countP StoreCall.isCreate = 1 := by
  decide

/-! ## C8 -/

/-- C8 (failing input): with amount 0 and either operation kind,
`WalletService.UpdateBalance` returns the error "amount must be greater than zero" without
calling the store; that message does not contain "amount cannot be zero". -/
theorem C8_zero_amount_message {σ : Type} (w : WalletInterface σ) (walletID : UUID) (st : σ) :
    (NewWalletService w).UpdateBalance walletID OperationTypeDeposit 0 st
      = ((false, some "amount must be greater than zero"), st)
    ∧ (NewWalletService w).UpdateBalance walletID OperationTypeWithdraw 0 st
      = ((false, some "amount must be greater than zero"), st)
    ∧ stringsContains "amount must be greater than zero" "amount cannot be zero" = false := by
  have hd : ¬ (OperationTypeDeposit ≠ OperationTypeDeposit
      ∧ OperationTypeDeposit ≠ OperationTypeWithdraw) := fun h => h.1 rfl
  have hw : ¬ (OperationTypeWithdraw ≠ OperationTypeDeposit
      ∧ OperationTypeWithdraw ≠ OperationTypeWithdraw) := fun h => h.2 rfl
  refine ⟨?_, ?_, by decide⟩
  · simp only [WalletService.UpdateBalance, if_neg hd, le_refl, if_true]
  · simp only [WalletService.UpdateBalance, if_neg hw, le_refl, if_true]

/-! ## C9 -/

/-- C9 fails: for an identifier without a wallet the repository's `UpdateBalance` with the
kind "INVALID" returns "wallet not found", and for an existing wallet it returns "invalid
operation type" only after the transaction was opened and the row read `FOR UPDATE`. -/
theorem C9_invalid_kind_counterexample :
    ((NewWalletRepository Driver.healthy).UpdateBalance 1 "INVALID" 5 Db.empty).1
      = (false, some "wallet not found")
    ∧ ((NewWalletRepository Driver.healthy).UpdateBalance 1 "INVALID" 5 Db.empty).2.calls
      = [.beginTx, .selectForUpdate 1]
    ∧ ((NewWalletRepository Driver.healthy).UpdateBalance 1 "INVALID" 5
        (Db.empty.setRow 1 700)).1 = (false, some "invalid operation type")
    ∧ ((NewWalletRepository Driver.healthy).UpdateBalance 1 "INVALID" 5
        (Db.empty.setRow 1 700)).2.calls = [.beginTx, .selectForUpdate 1] := by
  decide

/-- C9 (amended): for every identifier and every operation kind other than DEPOSIT and
WITHDRAW, the repository's `UpdateBalance` opens a transaction and reads the row
`FOR UPDATE` first; it then fails with "invalid operation type" when the wallet exists and
with "wallet not found" when it does not, and no stored balance changes. -/
theorem C9_invalid_kind (r : WalletRepository) (walletID : UUID)
    (operationType : OperationType) (amount : Nat) (st : Db)
    (hbegin : r.db.beginTx = none) (hquery : r.db.query = none)
    (hd : operationType ≠ OperationTypeDeposit) (hw : operationType ≠ OperationTypeWithdraw)
    (hrange : ∀ b, st.rows walletID = some b → b < uintSize) :
    (r.UpdateBalance walletID operationType amount st).1
      = (false, some (if (st.rows walletID).isSome then "invalid operation type"
          else "wallet not found"))
    ∧ (r.UpdateBalance walletID operationType amount st).2.rows = st.rows
    ∧ (st.calls ++ [.beginTx, .selectForUpdate walletID])
        <+: (r.UpdateBalance walletID operationType amount st).2.calls := by
  cases hrow : st.rows walletID with
  | none =>
    simp [WalletRepository.UpdateBalance, hbegin, hquery, Db.record, hrow]
  | some b =>
    have hb := hrange b hrow
    simp [WalletRepository.UpdateBalance, hbegin, hquery, Db.record, hrow, scanUint, hb,
      switchOperation, hd, hw]

/-- Instance of the amended C9 on an existing wallet with balance 700. -/
theorem C9_invalid_kind_witness :
    ((NewWalletRepository Driver.healthy).UpdateBalance 1 "INVALID" 5
        (Db.empty.setRow 1 700)).1
      = (false, some (if ((Db.empty.setRow 1 700).rows 1).isSome then "invalid operation type"
          else "wallet not found"))
    ∧ ((NewWalletRepository Driver.healthy).UpdateBalance 1 "INVALID" 5
        (Db.empty.setRow 1 700)).2.rows = (Db.empty.setRow 1 700).rows
    ∧ ((Db.empty.setRow 1 700).calls ++ [.beginTx, .selectForUpdate 1])
        <+: ((NewWalletRepository Driver.healthy).UpdateBalance 1 "INVALID" 5
          (Db.empty.setRow 1 700)).2.calls :=
  C9_invalid_kind (NewWalletRepository Driver.healthy) 1 "INVALID" 5 (Db.empty.setRow 1 700)
    rfl rfl (by decide) (by decide) (by
      intro b hb
      have h700 : b = 700 := by
        have h : (Db.empty.setRow 1 700).rows 1 = some 700 := rfl
        rw [h] at hb
        exact (Option.some.inj hb).symm
      rw [h700]
      decide)

/-! ## C10 -/

/-- C10 fails: with wallet 1 present, a driver failure whose message is "server not
found" makes `WalletHandler.GetBalance` answer 404 although the store did not report
that the wallet is missing. -/
theorem C10_status_mapping_counterexample :
    (Db.empty.setRow 1 700).rows 1 = some 700
    ∧ ((NewWalletRepository { Driver.healthy with query := some "server not found" }).GetBalance
        1 (Db.empty.setRow 1 700)).1
      = (0, some "failed to get balance: server not found")
    ∧ ((mainHandler { Driver.healthy with query := some "server not found" }).GetBalance
        (some 1) (Db.empty.setRow 1 700)).1
      = ⟨404, .error "wallet not found"⟩ := by
  decide

/-- C10 (amended): `WalletHandler.GetBalance` answers 200 with the balance when the store
read succeeds, 404 when the store fails with a message containing "not found", and 500
for every store failure whose message does not contain "not found".
`WalletHandler.ProcessOperation` answers 400 with a reason for an amount that is zero or
negative; for a DEPOSIT or WITHDRAW request with a positive amount it answers 200 when
the store's `UpdateBalance` succeeds, 400 with the reason "insufficient funds" when the
store fails with "insufficient funds", and 500 when the store fails with a message
containing none of the texts the handler looks for; for another operation kind that
contains neither "wallet not found" nor "balance not found" it answers 400. -/
theorem C10_status_mapping {σ : Type} (w : WalletInterface σ) (walletID : UUID)
    (req : OperationRequest) (st : σ) :
    (∀ b, (w.GetBalance walletID st).1 = (b, none) →
        ((NewWalletHandler (NewWalletService w)).GetBalance (some walletID) st).1
          = ⟨200, .balance b⟩)
    ∧ (∀ b e, (w.GetBalance walletID st).1 = (b, some e) →
        stringsContains e "not found" = true →
        ((NewWalletHandler (NewWalletService w)).GetBalance (some walletID) st).1
          = ⟨404, .error "wallet not found"⟩)
    ∧ (∀ b e, (w.GetBalance walletID st).1 = (b, some e) →
        stringsContains e "not found" = false →
        ((NewWalletHandler (NewWalletService w)).GetBalance (some walletID) st).1
          = ⟨500, .error "internal server error"⟩)
    ∧ (req.Amount ≤ 0 →
        ((NewWalletHandler (NewWalletService w)).ProcessOperation (.ok req) st).1
          = ⟨400, .error "amount must be greater than zero"⟩)
    ∧ (0 < req.Amount →
        req.OperationType = OperationTypeDeposit ∨ req.OperationType = OperationTypeWithdraw →
        (∀ ok, (w.UpdateBalance req.WalletID req.OperationType (toUint req.Amount) st).1
            = (ok, none) →
          ((NewWalletHandler (NewWalletService w)).ProcessOperation (.ok req) st).1
            = ⟨200, .message "operation completed"⟩)
        ∧ (∀ ok, (w.UpdateBalance req.WalletID req.OperationType (toUint req.Amount) st).1
            = (ok, some "insufficient funds") →
          ((NewWalletHandler (NewWalletService w)).ProcessOperation (.ok req) st).1
            = ⟨400, .error "insufficient funds"⟩)
        ∧ (∀ ok e, (w.UpdateBalance req.WalletID req.OperationType (toUint req.Amount) st).1
            = (ok, some e) →
          stringsContains e "wallet not found" = false →
          stringsContains e "balance not found" = false →
          stringsContains e "insufficient funds" = false →
          stringsContains e "invalid operationType" = false →
          stringsContains e "amount cannot be zero" = false →
          ((NewWalletHandler (NewWalletService w)).ProcessOperation (.ok req) st).1
            = ⟨500, .error "internal server error"⟩))
    ∧ (0 < req.Amount →
        req.OperationType ≠ OperationTypeDeposit ∧ req.OperationType ≠ OperationTypeWithdraw →
        (stringsContains ("invalid operationType: " ++ req.OperationType) "wallet not found"
          || stringsContains ("invalid operationType: " ++ req.OperationType)
              "balance not found") = false →
        ((NewWalletHandler (NewWalletService w)).ProcessOperation (.ok req) st).1.status
          = 400) := by
  refine ⟨?_, ?_, ?_, ?_, ?_, ?_⟩
  · intro b hb
    rcases hg : w.GetBalance walletID st with ⟨⟨b0, e0⟩, st0⟩
    rw [hg] at hb
    obtain ⟨rfl, rfl⟩ := Prod.mk.inj hb
    simp only [WalletHandler.GetBalance, NewWalletHandler, NewWalletService,
      WalletService.GetBalance, hg]
  · intro b e hb hnf
    rcases hg : w.GetBalance walletID st with ⟨⟨b0, e0⟩, st0⟩
    rw [hg] at hb
    obtain ⟨rfl, rfl⟩ := Prod.mk.inj hb
    have h1 : stringsContains ("failed to get wallets balance: " ++ e) "not found" = true := by
      rw [stringsContains_append _ _ _ (by decide)]
      exact hnf
    simp only [WalletHandler.GetBalance, NewWalletHandler, NewWalletService,
      WalletService.GetBalance, hg, h1, Bool.or_true, if_true]
  · intro b e hb hnf
    rcases hg : w.GetBalance walletID st with ⟨⟨b0, e0⟩, st0⟩
    rw [hg] at hb
    obtain ⟨rfl, rfl⟩ := Prod.mk.inj hb
    have h1 : stringsContains ("failed to get wallets balance: " ++ e) "not found" = false := by
      rw [stringsContains_append _ _ _ (by decide)]
      exact hnf
    have h2 : stringsContains ("failed to get wallets balance: " ++ e) "balance not found"
        = false := no_balance_not_found _ h1
    simp only [WalletHandler.GetBalance, NewWalletHandler, NewWalletService,
      WalletService.GetBalance, hg, h1, h2, Bool.or_self, Bool.false_eq_true, if_false]
  · intro hamt
    rw [amount_not_positive_rejected _ req st hamt]
  · intro hamt hkind
    have hk : ¬ (req.OperationType ≠ OperationTypeDeposit
        ∧ req.OperationType ≠ OperationTypeWithdraw) := by
      intro h
      rcases hkind with h1 | h1
      · exact h.1 h1
      · exact h.2 h1
    refine ⟨?_, ?_, ?_⟩
    · intro ok hu
      rcases hg : w.UpdateBalance req.WalletID req.OperationType (toUint req.Amount) st
        with ⟨⟨b0, e0⟩, st0⟩
      rw [hg] at hu
      obtain ⟨rfl, rfl⟩ := Prod.mk.inj hu
      simp only [WalletHandler.ProcessOperation, NewWalletHandler, NewWalletService,
        WalletService.UpdateBalance, if_neg (Int.not_le.mpr hamt), if_neg hk, hg]
    · intro ok hu
      rcases hg : w.UpdateBalance req.WalletID req.OperationType (toUint req.Amount) st
        with ⟨⟨b0, e0⟩, st0⟩
      rw [hg] at hu
      obtain ⟨rfl, rfl⟩ := Prod.mk.inj hu
      have h1 : stringsContains ("failed to update balance: " ++ "insufficient funds")
          "wallet not found" = false := by decide
      have h2 : stringsContains ("failed to update balance: " ++ "insufficient funds")
          "balance not found" = false := by decide
      have h3 : stringsContains ("failed to update balance: " ++ "insufficient funds")
          "insufficient funds" = true := by decide
      simp only [WalletHandler.ProcessOperation, NewWalletHandler, NewWalletService,
        WalletService.UpdateBalance, if_neg (Int.not_le.mpr hamt), if_neg hk, hg, h1, h2, h3,
        Bool.or_self, Bool.false_eq_true, if_false, if_true]
    · intro ok e hu hnf1 hnf2 hins hinv hzero
      rcases hg : w.UpdateBalance req.WalletID req.OperationType (toUint req.Amount) st
        with ⟨⟨b0, e0⟩, st0⟩
      rw [hg] at hu
      obtain ⟨rfl, rfl⟩ := Prod.mk.inj hu
      have h1 : stringsContains ("failed to update balance: " ++ e) "wallet not found"
          = false := by
        rw [stringsContains_append _ _ _ (by decide)]
        exact hnf1
      have h2 : stringsContains ("failed to update balance: " ++ e) "balance not found"
          = false := by
        rw [stringsContains_append _ _ _ (by decide)]
        exact hnf2
      have h3 : stringsContains ("failed to update balance: " ++ e) "insufficient funds"
          = false := by
        rw [stringsContains_append _ _ _ (by decide)]
        exact hins
      have h4 : stringsContains ("failed to update balance: " ++ e) "invalid operationType"
          = false := by
        rw [stringsContains_append _ _ _ (by decide)]
        exact hinv
      have h5 : stringsContains ("failed to update balance: " ++ e) "amount cannot be zero"
          = false := by
        rw [stringsContains_append _ _ _ (by decide)]
        exact hzero
      simp only [WalletHandler.ProcessOperation, NewWalletHandler, NewWalletService,
        WalletService.UpdateBalance, if_neg (Int.not_le.mpr hamt), if_neg hk, hg, h1, h2, h3,
        h4, h5, Bool.or_self, Bool.false_eq_true, if_false]
  · intro hamt hk hnf
    have h := (invalid_kind_rejected w req st hamt hk hnf).1
    rw [(observed_same w (.ok req) st).1] at h
    exact h

/-- Instance of the amended C10 on the repository: wallet 1 holds 700 and is read with
200, wallet 2 is missing and is answered 404. -/
theorem C10_status_mapping_witness :
    ((NewWalletHandler (NewWalletService (NewWalletRepository Driver.healthy).toInterface)).GetBalance
        (some 1) (Db.empty.setRow 1 700)).1 = ⟨200, .balance 700⟩
    ∧ ((NewWalletHandler (NewWalletService (NewWalletRepository Driver.healthy).toInterface)).GetBalance
        (some 2) (Db.empty.setRow 1 700)).1 = ⟨404, .error "wallet not found"⟩ :=
  ⟨(C10_status_mapping (NewWalletRepository Driver.healthy).toInterface 1
      ⟨1, OperationTypeDeposit, 1⟩ (Db.empty.setRow 1 700)).1 700 (by decide),
    (C10_status_mapping (NewWalletRepository Driver.healthy).toInterface 2
      ⟨1, OperationTypeDeposit, 1⟩ (Db.empty.setRow 1 700)).2.1 0 "balance not found"
      (by decide) (by decide)⟩

/-! ## C11 -/

/-- A call stepping alone over an unlocked table returns what
`WalletRepository.UpdateBalance` returns over a driver that does not fail, and leaves the
same rows. -/
theorem runAlone_agrees (c : Call) (st : Db) :
    (Proc.runAlone 4 { call := c, pc := .start }
        { rows := st.rows, locked := fun _ => false }).1.pc
      = .returned ((NewWalletRepository Driver.healthy).UpdateBalance c.walletID
          c.operationType c.amount st).1
    ∧ (Proc.runAlone 4 { call := c, pc := .start }
        { rows := st.rows, locked := fun _ => false }).2.rows
      = ((NewWalletRepository Driver.healthy).UpdateBalance c.walletID
          c.operationType c.amount st).2.rows := by
  cases hrow : st.rows c.walletID with
  | none =>
    simp [Proc.runAlone, Proc.step, WalletRepository.UpdateBalance, NewWalletRepository,
      Driver.healthy, Db.record, hrow]
  | some v =>
    by_cases hv : v < uintSize
    · by_cases hd : c.operationType = OperationTypeDeposit
      · simp [Proc.runAlone, Proc.step, WalletRepository.UpdateBalance, NewWalletRepository,
          Driver.healthy, Db.record, Db.setRow, hrow, scanUint, hv, switchOperation, hd,
          Shared.setLocked, Shared.commit]
      · by_cases hw : c.operationType = OperationTypeWithdraw
        · have hne : OperationTypeWithdraw ≠ OperationTypeDeposit := by decide
          by_cases hlt : v < c.amount
          · simp [Proc.runAlone, Proc.step, WalletRepository.UpdateBalance,
              NewWalletRepository, Driver.healthy, Db.record, Db.setRow, hrow, scanUint, hv,
              switchOperation, hw, hne, hlt, Shared.setLocked, Shared.commit]
          · simp [Proc.runAlone, Proc.step, WalletRepository.UpdateBalance,
              NewWalletRepository, Driver.healthy, Db.record, Db.setRow, hrow, scanUint, hv,
              switchOperation, hw, hne, hlt, Shared.setLocked, Shared.commit]
        · simp [Proc.runAlone, Proc.step, WalletRepository.UpdateBalance,
            NewWalletRepository, Driver.healthy, Db.record, Db.setRow, hrow, scanUint, hv,
            switchOperation, hd, hw, Shared.setLocked, Shared.commit]
    · simp [Proc.runAlone, Proc.step, WalletRepository.UpdateBalance, NewWalletRepository,
        Driver.healthy, Db.record, hrow, scanUint, hv, Shared.setLocked]

theorem okAt_of_not_holds (cur next : Nat) (pc : Pc) (h : pc.okAt cur)
    (hh : pc.holds = false) : pc.okAt next := by
  cases pc <;> simp_all [Pc.okAt, Pc.holds]

theorem okAt_of_no_holders (cur next : Nat) (ps : List Proc) (h : ∀ p ∈ ps, p.pc.okAt cur)
    (hh : holders ps = 0) : ∀ p ∈ ps, p.pc.okAt next := by
  induction ps with
  | nil => simp
  | cons p ps ih =>
    intro q hq
    have hp : p.pc.holds = false := by
      cases hv : p.pc.holds with
      | false => rfl
      | true => simp [holders, hv] at hh
    have hrest : holders ps = 0 := by
      simp only [holders, hp] at hh
      omega
    rcases List.mem_cons.mp hq with rfl | hq
    · exact okAt_of_not_holds cur next _ (h _ (List.mem_cons_self _ _)) hp
    · exact ih (fun r hr => h r (List.mem_cons_of_mem _ hr)) hrest q hq

/-- One step of a deposit of 1: it is silent, or takes the free row lock, or commits
`cur + 1` and releases the lock. -/
theorem proc_step_deposit (id cur : Nat) (p q : Proc) (sh sh1 : Shared)
    (hcall : p.call = depositOne id) (hrow : sh.rows id = some cur)
    (hcur : cur + 1 < uintSize) (hok : p.pc.okAt cur) (hstep : p.step sh = some (q, sh1)) :
    q.call = depositOne id ∧ q.pc.weight = p.pc.weight + 1 ∧ p.pc.isReturned = false
    ∧ ((sh1 = sh ∧ q.pc.holds = p.pc.holds ∧ q.pc.isReturned = false ∧ q.pc.okAt cur)
      ∨ (sh.locked id = false ∧ sh1 = sh.setLocked id true ∧ p.pc.holds = false
          ∧ q.pc.holds = true ∧ q.pc.isReturned = false ∧ q.pc.okAt cur)
      ∨ (sh1 = sh.commit id (cur + 1) ∧ p.pc.holds = true ∧ q.pc.holds = false
          ∧ q.pc = .returned (true, none))) := by
  obtain ⟨c, pc⟩ := p
  simp only at hcall
  subst hcall
  have hlt : cur < uintSize := by omega
  cases pc with
  | start =>
    simp only [Proc.step, Option.some.injEq, Prod.mk.injEq] at hstep
    obtain ⟨rfl, rfl⟩ := hstep
    simp [Pc.weight, Pc.isReturned, Pc.holds, Pc.okAt]
  | begun =>
    cases hl : sh.locked id with
    | true => simp [Proc.step, depositOne, hrow, hl] at hstep
    | false =>
      simp only [Proc.step, depositOne, hrow, hl, scanUint, if_pos hlt, Bool.false_eq_true,
        if_false, Option.some.injEq, Prod.mk.injEq] at hstep
      obtain ⟨rfl, rfl⟩ := hstep
      simp [Pc.weight, Pc.isReturned, Pc.holds, Pc.okAt, depositOne]
  | locked balance =>
    simp only [Pc.okAt] at hok
    subst hok
    simp only [Proc.step, depositOne, hrow, if_true, Option.isSome_some,
      Nat.mod_eq_of_lt hcur, Option.some.injEq, Prod.mk.injEq] at hstep
    obtain ⟨rfl, rfl⟩ := hstep
    simp [Pc.weight, Pc.isReturned, Pc.holds, Pc.okAt, depositOne]
  | updated newBalance =>
    simp only [Pc.okAt] at hok
    subst hok
    simp only [Proc.step, depositOne, Option.some.injEq, Prod.mk.injEq] at hstep
    obtain ⟨rfl, rfl⟩ := hstep
    simp [Pc.weight, Pc.isReturned, Pc.holds, depositOne]
  | returned ret => simp [Proc.step] at hstep

theorem holders_le_length (ps : List Proc) : holders ps ≤ ps.length := by
  induction ps with
  | nil => simp [holders]
  | cons p ps ih =>
    simp only [holders, List.length_cons]
    split <;> omega

theorem returnedCount_le_length (ps : List Proc) : returnedCount ps ≤ ps.length := by
  induction ps with
  | nil => simp [returnedCount]
  | cons p ps ih =>
    simp only [returnedCount, List.length_cons]
    split <;> omega

theorem totalWeight_le (ps : List Proc) : totalWeight ps ≤ 4 * ps.length := by
  induction ps with
  | nil => simp [totalWeight]
  | cons p ps ih =>
    have hp : p.pc.weight ≤ 4 := by cases p.pc <;> simp [Pc.weight]
    simp only [totalWeight, List.length_cons]
    omega

/-- A call that can step has not returned. -/
theorem stepAt_returned_lt (ps : List Proc) :
    ∀ (i : Nat) (sh : Shared) (r : List Proc × Shared), stepAt ps i sh = some r →
      returnedCount ps < ps.length := by
  induction ps with
  | nil => intro i sh r h; simp [stepAt] at h
  | cons p ps ih =>
    intro i sh r h
    cases i with
    | zero =>
      have hp : p.pc.isReturned = false := by
        cases hpc : p.pc with
        | returned ret => simp [stepAt, Proc.step, hpc] at h
        | _ => rfl
      have := returnedCount_le_length ps
      simp only [returnedCount, hp, List.length_cons]
      simp only [Bool.false_eq_true, if_false]
      omega
    | succ i =>
      cases hs : stepAt ps i sh with
      | none => simp [stepAt, hs] at h
      | some r1 =>
        have := ih i sh r1 hs
        simp only [returnedCount, List.length_cons]
        split <;> omega

/-- One step of a list of deposits of 1 into the same wallet, of which at most one holds
the row lock. -/
theorem stepAt_deposit (id cur : Nat) (ps : List Proc) :
    ∀ (i : Nat) (sh : Shared) (qs : List Proc) (sh1 : Shared),
      (∀ p ∈ ps, p.call = depositOne id) → sh.rows id = some cur → cur + 1 < uintSize →
      (∀ p ∈ ps, p.pc.okAt cur) → holders ps ≤ 1 →
      stepAt ps i sh = some (qs, sh1) →
      (∀ q ∈ qs, q.call = depositOne id) ∧ qs.length = ps.length
      ∧ totalWeight qs = totalWeight ps + 1
      ∧ ((sh1 = sh ∧ holders qs = holders ps ∧ returnedCount qs = returnedCount ps
            ∧ ∀ q ∈ qs, q.pc.okAt cur)
        ∨ (sh.locked id = false ∧ sh1 = sh.setLocked id true ∧ holders qs = holders ps + 1
            ∧ returnedCount qs = returnedCount ps ∧ ∀ q ∈ qs, q.pc.okAt cur)
        ∨ (sh1 = sh.commit id (cur + 1) ∧ holders qs + 1 = holders ps
            ∧ returnedCount qs = returnedCount ps + 1 ∧ ∀ q ∈ qs, q.pc.okAt (cur + 1))) := by
  induction ps with
  | nil => intro i sh qs sh1 _ _ _ _ _ h; simp [stepAt] at h
  | cons p ps ih =>
    intro i sh qs sh1 hcall hrow hcur hok hhold hstep
    have hcallp := hcall p (List.mem_cons_self _ _)
    have hcallps : ∀ r ∈ ps, r.call = depositOne id :=
      fun r hr => hcall r (List.mem_cons_of_mem _ hr)
    have hokp := hok p (List.mem_cons_self _ _)
    have hokps : ∀ r ∈ ps, r.pc.okAt cur := fun r hr => hok r (List.mem_cons_of_mem _ hr)
    cases i with
    | zero =>
      cases hs : p.step sh with
      | none => simp [stepAt, hs] at hstep
      | some r =>
        obtain ⟨q, sh2⟩ := r
        simp only [stepAt, hs, Option.some.injEq, Prod.mk.injEq] at hstep
        obtain ⟨rfl, rfl⟩ := hstep
        obtain ⟨hqc, hqw, hpr, hkind⟩ := proc_step_deposit id cur p q sh sh2 hcallp hrow hcur hokp hs
        refine ⟨?_, by simp, by simp only [totalWeight, hqw]; omega, ?_⟩
        · intro r hr
          rcases List.mem_cons.mp hr with rfl | hr
          · exact hqc
          · exact hcallps r hr
        · rcases hkind with ⟨h1, h2, h3, h4⟩ | ⟨h0, h1, h2, h3, h4, h5⟩ | ⟨h1, h2, h3, h4⟩
          · refine Or.inl ⟨h1, by simp only [holders, h2], by simp only [returnedCount, h3, hpr], ?_⟩
            intro r hr
            rcases List.mem_cons.mp hr with rfl | hr
            · exact h4
            · exact hokps r hr
          · refine Or.inr (Or.inl ⟨h0, h1, ?_, by simp only [returnedCount, h4, hpr], ?_⟩)
            · simp only [holders, h2, h3, Bool.false_eq_true, if_false, if_true]
              omega
            · intro r hr
              rcases List.mem_cons.mp hr with rfl | hr
              · exact h5
              · exact hokps r hr
          · have hzero : holders ps = 0 := by
              simp only [holders, h2, if_true] at hhold
              omega
            refine Or.inr (Or.inr ⟨h1, ?_, ?_, ?_⟩)
            · simp only [holders, h2, h3, Bool.false_eq_true, if_false, if_true]
              omega
            · have hq : q.pc.isReturned = true := by
                rw [h4]
                rfl
              simp only [returnedCount, hq, hpr, Bool.false_eq_true, if_false, if_true]
              omega
            · intro r hr
              rcases List.mem_cons.mp hr with rfl | hr
              · rw [h4]
                exact rfl
              · exact okAt_of_no_holders cur (cur + 1) ps hokps hzero r hr
    | succ i =>
      cases hs : stepAt ps i sh with
      | none => simp [stepAt, hs] at hstep
      | some r =>
        obtain ⟨qs1, sh2⟩ := r
        simp only [stepAt, hs, Option.some.injEq, Prod.mk.injEq] at hstep
        obtain ⟨rfl, rfl⟩ := hstep
        have hholdps : holders ps ≤ 1 := by
          simp only [holders] at hhold
          omega
        obtain ⟨hqc, hlen, hw, hkind⟩ :=
          ih i sh qs1 sh2 hcallps hrow hcur hokps hholdps hs
        refine ⟨?_, by simp [hlen], by simp only [totalWeight, hw]; omega, ?_⟩
        · intro r hr
          rcases List.mem_cons.mp hr with rfl | hr
          · exact hcallp
          · exact hqc r hr
        · rcases hkind with ⟨h1, h2, h3, h4⟩ | ⟨h0, h1, h2, h3, h4⟩ | ⟨h1, h2, h3, h4⟩
          · refine Or.inl ⟨h1, by simp only [holders, h2], by simp only [returnedCount, h3], ?_⟩
            intro r hr
            rcases List.mem_cons.mp hr with rfl | hr
            · exact hokp
            · exact h4 r hr
          · refine Or.inr (Or.inl ⟨h0, h1, by simp only [holders, h2]; omega,
              by simp only [returnedCount, h3], ?_⟩)
            intro r hr
            rcases List.mem_cons.mp hr with rfl | hr
            · exact hokp
            · exact h4 r hr
          · have hp : p.pc.holds = false := by
              cases hv : p.pc.holds with
              | false => rfl
              | true =>
                simp only [holders, hv, if_true] at hhold
                omega
            refine Or.inr (Or.inr ⟨h1, by simp only [holders]; omega,
              by simp only [returnedCount, h3]; omega, ?_⟩)
            intro r hr
            rcases List.mem_cons.mp hr with rfl | hr
            · exact okAt_of_not_holds cur (cur + 1) _ hokp hp
            · exact h4 r hr

theorem depositsInv_step (id B N : Nat) (s s1 : Sys) (i : Nat) (hrange : B + N < uintSize)
    (hinv : DepositsInv id B N s) (hstep : s.step i = some s1) :
    DepositsInv id B N s1 ∧ totalWeight s1.procs = totalWeight s.procs + 1 := by
  obtain ⟨hlen, hcall, hrow, hok, hhold⟩ := hinv
  cases hs : stepAt s.procs i s.shared with
  | none => simp [Sys.step, hs] at hstep
  | some r =>
    obtain ⟨qs, sh1⟩ := r
    simp only [Sys.step, hs, Option.some.injEq] at hstep
    subst hstep
    have hlt := stepAt_returned_lt s.procs i s.shared _ hs
    have hcur : B + returnedCount s.procs + 1 < uintSize := by omega
    have hle : holders s.procs ≤ 1 := by
      rw [hhold]
      split <;> omega
    obtain ⟨hqc, hqlen, hw, hkind⟩ := stepAt_deposit id (B + returnedCount s.procs) s.procs i
      s.shared qs sh1 hcall hrow hcur hok hle hs
    refine ⟨⟨by simp only [hqlen, hlen], hqc, ?_⟩, hw⟩
    rcases hkind with ⟨h1, h2, h3, h4⟩ | ⟨h0, h1, h2, h3, h4⟩ | ⟨h1, h2, h3, h4⟩
    · subst h1
      simp only [h3, h2]
      exact ⟨hrow, h4, hhold⟩
    · subst h1
      simp only [h3, h2]
      refine ⟨hrow, h4, ?_⟩
      simp only [hhold, h0, Shared.setLocked, Bool.false_eq_true, if_false, if_true]
    · subst h1
      simp only [h3]
      refine ⟨by simp [Shared.commit, Nat.add_assoc], ?_, ?_⟩
      · intro q hq
        have := h4 q hq
        simpa [Nat.add_assoc] using this
      · simp only [Shared.commit, if_true, Bool.false_eq_true, if_false]
        omega

theorem depositsInv_run (id B N : Nat) (hrange : B + N < uintSize) (sch : List Nat) :
    ∀ (s s1 : Sys), DepositsInv id B N s → Sys.run s sch = some s1 →
      DepositsInv id B N s1 ∧ totalWeight s1.procs = totalWeight s.procs + sch.length := by
  induction sch with
  | nil =>
    intro s s1 hinv hrun
    simp only [Sys.run, Option.some.injEq] at hrun
    subst hrun
    exact ⟨hinv, rfl⟩
  | cons i sch ih =>
    intro s s1 hinv hrun
    cases hs : s.step i with
    | none => simp [Sys.run, hs] at hrun
    | some s2 =>
      simp only [Sys.run, hs] at hrun
      obtain ⟨hinv2, hw2⟩ := depositsInv_step id B N s s2 i hrange hinv hs
      obtain ⟨hinv1, hw1⟩ := ih s2 s1 hinv2 hrun
      refine ⟨hinv1, ?_⟩
      rw [hw1, hw2, List.length_cons]
      omega

theorem concurrent_start (id : UUID) (N : Nat) :
    (∀ p ∈ List.replicate N ({ call := depositOne id, pc := Pc.start } : Proc),
        p.call = depositOne id ∧ p.pc.okAt 0)
    ∧ returnedCount (List.replicate N { call := depositOne id, pc := Pc.start }) = 0
    ∧ holders (List.replicate N { call := depositOne id, pc := Pc.start }) = 0
    ∧ totalWeight (List.replicate N { call := depositOne id, pc := Pc.start }) = 0 := by
  induction N with
  | zero => simp [returnedCount, holders, totalWeight]
  | succ n ih =>
    obtain ⟨h1, h2, h3, h4⟩ := ih
    refine ⟨?_, ?_, ?_, ?_⟩
    · intro p hp
      rw [List.eq_of_mem_replicate hp]
      exact ⟨rfl, trivial⟩
    · simp only [List.replicate_succ, returnedCount, h2, Pc.isReturned, Bool.false_eq_true,
        if_false]
    · simp only [List.replicate_succ, holders, h3, Pc.holds, Bool.false_eq_true, if_false]
    · simp only [List.replicate_succ, totalWeight, h4, Pc.weight]

theorem depositsInv_start (id : UUID) (B N : Nat) (rows : UUID → Option Nat)
    (hrow : rows id = some B) :
    DepositsInv id B N (concurrentCalls rows (List.replicate N (depositOne id)))
    ∧ totalWeight (concurrentCalls rows (List.replicate N (depositOne id))).procs = 0 := by
  obtain ⟨h1, h2, h3, h4⟩ := concurrent_start id N
  simp only [DepositsInv, concurrentCalls, List.map_replicate, List.length_replicate, h2, h3,
    h4, Nat.add_zero, Bool.false_eq_true, if_false, and_true, true_and]
  refine ⟨fun p hp => (h1 p hp).1, hrow, fun p hp => ?_⟩
  rw [List.eq_of_mem_replicate hp]
  exact trivial

theorem stepAt_zero_isSome (p : Proc) (ps : List Proc) (sh : Shared)
    (h : (p.step sh).isSome = true) : (stepAt (p :: ps) 0 sh).isSome = true := by
  cases hs : p.step sh with
  | none => simp [hs] at h
  | some r => simp [stepAt, hs]

theorem stepAt_succ_isSome (p : Proc) (ps : List Proc) (i : Nat) (sh : Shared)
    (h : (stepAt ps i sh).isSome = true) : (stepAt (p :: ps) (i + 1) sh).isSome = true := by
  cases hs : stepAt ps i sh with
  | none => simp [hs] at h
  | some r => simp [stepAt, hs]

/-- A call that holds the row lock can step. -/
theorem holder_can_step (p : Proc) (sh : Shared) (h : p.pc.holds = true) :
    (p.step sh).isSome = true := by
  obtain ⟨c, pc⟩ := p
  cases pc with
  | locked balance =>
    simp only [Proc.step]
    split_ifs <;> rfl
  | updated newBalance => rfl
  | start => simp [Pc.holds] at h
  | begun => simp [Pc.holds] at h
  | returned ret => simp [Pc.holds] at h

/-- A call that has not returned and whose row is not locked can step. -/
theorem free_can_step (p : Proc) (sh : Shared) (h : p.pc.isReturned = false)
    (hfree : sh.locked p.call.walletID = false) : (p.step sh).isSome = true := by
  obtain ⟨c, pc⟩ := p
  cases pc with
  | start => rfl
  | begun =>
    simp only at hfree
    simp only [Proc.step, hfree, Bool.false_eq_true, if_false]
    cases sh.rows c.walletID with
    | none => rfl
    | some v =>
      simp only []
      cases scanUint v <;> rfl
  | locked balance => exact holder_can_step _ sh rfl
  | updated newBalance => rfl
  | returned ret => simp [Pc.isReturned] at h

theorem some_holder_steps (ps : List Proc) (sh : Shared) (h : 1 ≤ holders ps) :
    ∃ i, (stepAt ps i sh).isSome = true := by
  induction ps with
  | nil => simp [holders] at h
  | cons p ps ih =>
    cases hp : p.pc.holds with
    | true => exact ⟨0, stepAt_zero_isSome p ps sh (holder_can_step p sh hp)⟩
    | false =>
      simp only [holders, hp, Bool.false_eq_true, if_false, Nat.zero_add] at h
      obtain ⟨i, hi⟩ := ih h
      exact ⟨i + 1, stepAt_succ_isSome p ps i sh hi⟩

theorem some_free_steps (id : UUID) (ps : List Proc) (sh : Shared)
    (hcall : ∀ p ∈ ps, p.call = depositOne id) (hfree : sh.locked id = false)
    (h : ∃ p ∈ ps, p.pc.isReturned = false) : ∃ i, (stepAt ps i sh).isSome = true := by
  induction ps with
  | nil => simp at h
  | cons p ps ih =>
    cases hp : p.pc.isReturned with
    | false =>
      refine ⟨0, stepAt_zero_isSome p ps sh (free_can_step p sh hp ?_)⟩
      rw [hcall p (List.mem_cons_self _ _)]
      exact hfree
    | true =>
      obtain ⟨q, hq, hqr⟩ := h
      rcases List.mem_cons.mp hq with rfl | hq
      · rw [hp] at hqr
        exact absurd hqr (by decide)
      · obtain ⟨i, hi⟩ := ih (fun r hr => hcall r (List.mem_cons_of_mem _ hr)) ⟨q, hq, hqr⟩
        exact ⟨i + 1, stepAt_succ_isSome p ps i sh hi⟩

/-- No deadlock: while a deposit has not returned, some call can step. -/
theorem depositsInv_progress (id B N : Nat) (s : Sys) (hinv : DepositsInv id B N s)
    (h : ∃ p ∈ s.procs, p.pc.isReturned = false) : ∃ i, (s.step i).isSome = true := by
  obtain ⟨_, hcall, _, _, hhold⟩ := hinv
  have hsome : ∃ i, (stepAt s.procs i s.shared).isSome = true := by
    cases hl : s.shared.locked id with
    | true =>
      apply some_holder_steps
      rw [hhold, hl]
      simp
    | false => exact some_free_steps id s.procs s.shared hcall hl h
  obtain ⟨i, hi⟩ := hsome
  refine ⟨i, ?_⟩
  cases hs : stepAt s.procs i s.shared with
  | none => simp [hs] at hi
  | some r => simp [Sys.step, hs]

theorem returnedCount_of_all (ps : List Proc) (h : ∀ p ∈ ps, p.pc.isReturned = true) :
    returnedCount ps = ps.length := by
  induction ps with
  | nil => rfl
  | cons p ps ih =>
    simp only [returnedCount, h p (List.mem_cons_self _ _), if_true, List.length_cons,
      ih (fun r hr => h r (List.mem_cons_of_mem _ hr))]
    omega

/-- C11: for `N` concurrent calls `UpdateBalance(id, DEPOSIT, 1)` (`N` a Go `int`) on a
wallet whose balance `B` is one the store holds (below `2 ^ 63`), every schedule of their
steps has at most `4 * N` steps; as long as a call has not returned some call can step
(no deadlock); and when no call can step any more every call has returned `(true, nil)`
and the stored balance is `B + N`. -/
theorem C11_no_lost_updates (walletID : UUID) (B N : Nat) (rows : UUID → Option Nat)
    (hrow : rows walletID = some B) (hB : B < intSize) (hN : N < intSize) (sch : List Nat)
    (s : Sys)
    (hrun : Sys.run (concurrentCalls rows (List.replicate N (depositOne walletID))) sch
      = some s) :
    sch.length ≤ 4 * N
    ∧ ((∃ p ∈ s.procs, p.pc.isReturned = false) → ∃ i, (s.step i).isSome = true)
    ∧ ((∀ i, s.step i = none) →
        s.procs.length = N
        ∧ (∀ p ∈ s.procs, p.pc = .returned (true, none))
        ∧ s.shared.rows walletID = some (B + N)) := by
  have hrange : B + N < uintSize := by
    have h2 : intSize + intSize = uintSize := by decide
    omega
  obtain ⟨hinv0, hw0⟩ := depositsInv_start walletID B N rows hrow
  obtain ⟨hinv, hw⟩ := depositsInv_run walletID B N hrange sch _ s hinv0 hrun
  have hprog := depositsInv_progress walletID B N s hinv
  refine ⟨?_, hprog, ?_⟩
  · have h4 := totalWeight_le s.procs
    rw [hinv.1] at h4
    omega
  · intro hstuck
    have hall : ∀ p ∈ s.procs, p.pc.isReturned = true := by
      intro p hp
      cases hr : p.pc.isReturned with
      | true => rfl
      | false =>
        obtain ⟨i, hi⟩ := hprog ⟨p, hp, hr⟩
        rw [hstuck i] at hi
        exact absurd hi (by decide)
    have hcount := returnedCount_of_all s.procs hall
    obtain ⟨hlen, _, hrows, hok, _⟩ := hinv
    refine ⟨hlen, ?_, by rw [hrows, hcount, hlen]⟩
    intro p hp
    have h1 := hok p hp
    have h2 := hall p hp
    cases hpc : p.pc with
    | returned ret =>
      rw [hpc] at h1
      simp only [Pc.okAt] at h1
      rw [h1]
    | start => rw [hpc] at h2; exact absurd h2 (by decide)
    | begun => rw [hpc] at h2; exact absurd h2 (by decide)
    | locked b => rw [hpc] at h2; simp [Pc.isReturned] at h2
    | updated b => rw [hpc] at h2; simp [Pc.isReturned] at h2

/-- Instance of C11: two deposits into a wallet holding 10, the second call
reaching the locked read while the first holds the lock; at the end both have returned
`(true, nil)` and the balance is 12. -/
theorem C11_no_lost_updates_witness :
    [0, 1, 0, 0, 0, 1, 1, 1].length ≤ 4 * 2
    ∧ ((∃ p ∈ twoDepositsEnd.procs, p.pc.isReturned = false) →
        ∃ i, (twoDepositsEnd.step i).isSome = true)
    ∧ ((∀ i, twoDepositsEnd.step i = none) →
        twoDepositsEnd.procs.length = 2
        ∧ (∀ p ∈ twoDepositsEnd.procs, p.pc = .returned (true, none))
        ∧ twoDepositsEnd.shared.rows 1 = some (10 + 2)) :=
  C11_no_lost_updates 1 10 2 (fun j => if j = 1 then some 10 else none) rfl (by decide)
    (by decide) [0, 1, 0, 0, 0, 1, 1, 1] twoDepositsEnd rfl

/-! ## C12 -/

/-- C12: for an identifier without a wallet and a strictly positive amount `a` (a Go
`int`), a WITHDRAW request handled by `ProcessOperation` answers 400 "insufficient funds",
and afterwards a wallet exists for the identifier with balance 0. -/
theorem C12_withdraw_provisions (walletID : UUID) (a : Int) (st : Db)
    (hrow : st.rows walletID = none) (ha : 0 < a) (hint : a < (intSize : Int)) :
    ((mainHandler Driver.healthy).ProcessOperation
        (.ok ⟨walletID, OperationTypeWithdraw, a⟩) st).1
      = ⟨400, .error "insufficient funds"⟩
    ∧ ((mainHandler Driver.healthy).ProcessOperation
        (.ok ⟨walletID, OperationTypeWithdraw, a⟩) st).2.rows walletID = some 0 := by
  have hs : (mainHandler Driver.healthy).service = healthyService := rfl
  have h1 := service_update_absent walletID OperationTypeWithdraw a st hrow ha (Or.inr rfl)
  have hc : stringsContains "failed to update balance: wallet not found" "wallet not found"
      = true := by decide
  have hi : stringsContains "failed to update balance: insufficient funds"
      "insufficient funds" = true := by decide
  have h2 := service_create_absent walletID
    ((st.record .beginTx).record (.selectForUpdate walletID)) hrow
  have hrow2 : ((((st.record .beginTx).record (.selectForUpdate walletID)).record
      (.insert walletID)).setRow walletID 0).rows walletID = some 0 := by
    simp [Db.setRow]
  have hisz : (intSize : Int) < (uintSize : Int) := by
    have : intSize < uintSize := by decide
    exact_mod_cast this
  have h3 := service_withdraw_short walletID a 0 _ hrow2 (by decide) (by simpa using ha)
    (by omega)
  obtain ⟨st3, h3f, h3r⟩ : ∃ st3, healthyService.UpdateBalance walletID OperationTypeWithdraw a
      ((((st.record .beginTx).record (.selectForUpdate walletID)).record
        (.insert walletID)).setRow walletID 0)
        = ((false, some "failed to update balance: insufficient funds"), st3)
      ∧ st3.rows walletID = some 0 := ⟨_, Prod.ext h3.1 rfl, by rw [h3.2]; exact hrow2⟩
  have hrun : (mainHandler Driver.healthy).ProcessOperation
      (.ok ⟨walletID, OperationTypeWithdraw, a⟩) st
      = (⟨400, .error "insufficient funds"⟩, st3) := by
    simp only [WalletHandler.ProcessOperation, hs, h1, hc, h2, h3f, hi,
      if_neg (Int.not_le.mpr ha), Bool.true_or, if_true]
  rw [hrun]
  exact ⟨rfl, h3r⟩

/-- Instance of C12: a withdrawal of 300 from the empty database. -/
theorem C12_withdraw_provisions_witness :
    ((mainHandler Driver.healthy).ProcessOperation
        (.ok ⟨1, OperationTypeWithdraw, 300⟩) Db.empty).1
      = ⟨400, .error "insufficient funds"⟩
    ∧ ((mainHandler Driver.healthy).ProcessOperation
        (.ok ⟨1, OperationTypeWithdraw, 300⟩) Db.empty).2.rows 1 = some 0 :=
  C12_withdraw_provisions 1 300 Db.empty rfl (by decide) (by decide)

/-! ## C13 -/

theorem openTxAfter_append (xs ys : List DbCall) :
    ∀ n, openTxAfter n (xs ++ ys) = openTxAfter (openTxAfter n xs) ys := by
  induction xs with
  | nil => intro n; rfl
  | cons c xs ih =>
    intro n
    cases c <;> rw [List.cons_append] <;> simp only [openTxAfter] <;> exact ih _

theorem openTx_append (xs ys : List DbCall) :
    openTx (xs ++ ys) = openTxAfter (openTx xs) ys :=
  openTxAfter_append xs ys 0

/-- The return on insufficient funds rolls the transaction back. -/
theorem tx_ended_on_insufficient_funds (r : WalletRepository) (walletID : UUID) (b a : Nat)
    (st : Db) (hbegin : r.db.beginTx = none) (hquery : r.db.query = none)
    (hrow : st.rows walletID = some b) (ha : a < uintSize) (hab : b < a) :
    openTx (r.UpdateBalance walletID OperationTypeWithdraw a st).2.calls = openTx st.calls := by
  have hne : OperationTypeWithdraw ≠ OperationTypeDeposit := by decide
  have hb : b < uintSize := Nat.lt_trans hab ha
  have hcalls : (r.UpdateBalance walletID OperationTypeWithdraw a st).2.calls
      = st.calls ++ [.beginTx, .selectForUpdate walletID, .rollback] := by
    simp [WalletRepository.UpdateBalance, hbegin, hquery, Db.record, hrow, scanUint, hb,
      switchOperation, hne, hab]
  rw [hcalls, openTx_append]
  simp [openTxAfter]

/-- The successful return commits the transaction. -/
theorem tx_ended_on_success (walletID : UUID) (amount b : Nat) (st : Db)
    (hrow : st.rows walletID = some b) (hb : b < uintSize) :
    openTx ((NewWalletRepository Driver.healthy).UpdateBalance walletID OperationTypeDeposit
      amount st).2.calls = openTx st.calls := by
  rw [healthy_update_deposit walletID amount b st hrow hb]
  have hcalls : (((((st.record .beginTx).record (.selectForUpdate walletID)).record
      (.update walletID ((b + amount) % uintSize))).record .commit).setRow walletID
      ((b + amount) % uintSize)).calls
      = st.calls ++ [.beginTx, .selectForUpdate walletID,
          .update walletID ((b + amount) % uintSize), .commit] := by
    simp [Db.record, Db.setRow]
  rw [hcalls, openTx_append]
  simp [openTxAfter]

/-- The return on an unknown operation kind leaves the transaction open, with the row
read `FOR UPDATE`. -/
theorem tx_open_on_invalid_kind (r : WalletRepository) (walletID : UUID)
    (operationType : OperationType) (amount b : Nat) (st : Db)
    (hbegin : r.db.beginTx = none) (hquery : r.db.query = none)
    (hd : operationType ≠ OperationTypeDeposit) (hw : operationType ≠ OperationTypeWithdraw)
    (hrow : st.rows walletID = some b) (hb : b < uintSize) :
    (r.UpdateBalance walletID operationType amount st).1
      = (false, some "invalid operation type")
    ∧ openTx (r.UpdateBalance walletID operationType amount st).2.calls
      = openTx st.calls + 1 := by
  have hcalls : (r.UpdateBalance walletID operationType amount st).2.calls
      = st.calls ++ [.beginTx, .selectForUpdate walletID] := by
    simp [WalletRepository.UpdateBalance, hbegin, hquery, Db.record, hrow, scanUint, hb,
      switchOperation, hd, hw]
  refine ⟨?_, ?_⟩
  · simp [WalletRepository.UpdateBalance, hbegin, hquery, Db.record, hrow, scanUint, hb,
      switchOperation, hd, hw]
  · rw [hcalls, openTx_append]
    simp [openTxAfter]

/-- C13 (failing input): for an identifier without a wallet, `UpdateBalance` opens a
transaction, reads the row, and returns "wallet not found" with neither `Commit` nor
`Rollback`: one more transaction is open after the call than before it. -/
theorem C13_transaction_left_open (r : WalletRepository) (walletID : UUID)
    (operationType : OperationType) (amount : Nat) (st : Db)
    (hbegin : r.db.beginTx = none) (hquery : r.db.query = none)
    (hrow : st.rows walletID = none) :
    (r.UpdateBalance walletID operationType amount st).1 = (false, some "wallet not found")
    ∧ (r.UpdateBalance walletID operationType amount st).2.calls
        = st.calls ++ [.beginTx, .selectForUpdate walletID]
    ∧ openTx (r.UpdateBalance walletID operationType amount st).2.calls
        = openTx st.calls + 1 := by
  have hcalls : (r.UpdateBalance walletID operationType amount st).2.calls
      = st.calls ++ [.beginTx, .selectForUpdate walletID] := by
    simp [WalletRepository.UpdateBalance, hbegin, hquery, Db.record, hrow]
  refine ⟨?_, hcalls, ?_⟩
  · simp [WalletRepository.UpdateBalance, hbegin, hquery, Db.record, hrow]
  · rw [hcalls, openTx_append]
    simp [openTxAfter]

/-- Instance of C13's failing input: `UpdateBalance(1, DEPOSIT, 1)` on the empty database
leaves one transaction open. -/
theorem C13_transaction_left_open_witness :
    ((NewWalletRepository Driver.healthy).UpdateBalance 1 OperationTypeDeposit 1 Db.empty).1
      = (false, some "wallet not found")
    ∧ ((NewWalletRepository Driver.healthy).UpdateBalance 1 OperationTypeDeposit 1
        Db.empty).2.calls = Db.empty.calls ++ [.beginTx, .selectForUpdate 1]
    ∧ openTx ((NewWalletRepository Driver.healthy).UpdateBalance 1 OperationTypeDeposit 1
        Db.empty).2.calls = openTx Db.empty.calls + 1 :=
  C13_transaction_left_open (NewWalletRepository Driver.healthy) 1 OperationTypeDeposit 1
    Db.empty rfl rfl rfl

end Wallet
